import Mathlib

/-!
Shallow embedding of the `constantia` decorator-driven routing/validation
library (TypeScript), covering the metadata registry (`src/metadata.ts`),
the schema-directed validator (`src/adapters/validation.ts`), the middleware
pipeline runner and error mapper (`src/adapters/express.ts`), and the error
taxonomy (`src/errors/index.ts`).

JavaScript values are modelled by the inductive `JSVal`; JS numbers are
modelled as rationals (float rounding plays no role in any statement here).
JS runtime built-ins (`Number`, `decodeURIComponent`, `JSON.parse`) are
modelled by executable Lean functions that agree with the builtin on the
inputs relevant to this development; each carries a comment describing the
modelled fragment.
-/

namespace Constantia

/-- A JavaScript value: string, number, boolean, `null`, `undefined`,
array, or plain object (field list in property-insertion order). -/
inductive JSVal : Type where
  | vStr (s : String)
  | vNum (q : ℚ)
  | vBool (b : Bool)
  | vNull
  | vUndefined
  | vArr (elems : List JSVal)
  | vObj (fields : List (String × JSVal))

open JSVal

/-- `typeof v` as in JavaScript (arrays and `null` are `"object"`). -/
def jsTypeof : JSVal → String
  | vStr _ => "string"
  | vNum _ => "number"
  | vBool _ => "boolean"
  | vNull => "object"
  | vUndefined => "undefined"
  | vArr _ => "object"
  | vObj _ => "object"

/-- Digits of a decimal string folded into a natural number. -/
def natOfDigits (cs : List Char) : Nat :=
  cs.foldl (fun acc c => acc * 10 + (c.toNat - '0'.toNat)) 0

/-- Whitespace trim on both ends (models `String.prototype.trim`; the JS
builtin also strips some Unicode spaces, irrelevant here). Implemented on
the character list so it computes by kernel reduction. -/
def strTrim (s : String) : String :=
  String.mk (((s.data.dropWhile Char.isWhitespace).reverse.dropWhile
    Char.isWhitespace).reverse)

/-- ASCII lower-casing (models `String.prototype.toLowerCase` on the ASCII
fragment used by the library). -/
def strToLower (s : String) : String :=
  String.mk (s.data.map Char.toLower)

/-- Canonical decimal parse of a string (the fragment of `String.toNat?`
needed for JS array index tests). -/
def strToNat? (s : String) : Option Nat :=
  if !s.data.isEmpty && s.data.all Char.isDigit then some (natOfDigits s.data)
  else none

/-- UTF-8 bytes of one character. -/
def utf8EncodeCharNat (c : Char) : List Nat :=
  let n := c.toNat
  if n < 0x80 then [n]
  else if n < 0x800 then [0xC0 + n / 64, 0x80 + n % 64]
  else if n < 0x10000 then
    [0xE0 + n / 4096, 0x80 + (n / 64) % 64, 0x80 + n % 64]
  else
    [0xF0 + n / 262144, 0x80 + (n / 4096) % 64, 0x80 + (n / 64) % 64,
      0x80 + n % 64]

/-- Model of the JS `Number(string)` conversion, on the fragment used by the
library: optional sign, decimal digits with an optional fractional part
(`"42"`, `"-3.5"`); the empty/whitespace-only string converts to `0`.
Strings outside this fragment (hex, exponents, `Infinity`) are mapped to
`none`, which stands for `NaN`. -/
def jsNumberOfString (s : String) : Option ℚ :=
  let t := strTrim s
  if t = "" then some 0
  else
    let (neg, body) :=
      match t.toList with
      | '-' :: rest => (true, rest)
      | '+' :: rest => (false, rest)
      | l => (false, l)
    let intPart := body.takeWhile Char.isDigit
    let rest := body.dropWhile Char.isDigit
    match rest with
    | [] =>
        if intPart = [] then none
        else
          let q : ℚ := (natOfDigits intPart : ℚ)
          some (if neg then -q else q)
    | '.' :: fracs =>
        if fracs.all Char.isDigit ∧ fracs ≠ [] ∧ intPart ≠ [] then
          let q : ℚ :=
            (natOfDigits intPart : ℚ) +
              (natOfDigits fracs : ℚ) / ((10 : ℚ) ^ fracs.length)
          some (if neg then -q else q)
        else none
    | _ => none

/-- Hex digit value, if any. -/
def hexDigit? (c : Char) : Option Nat :=
  if c.isDigit then some (c.toNat - '0'.toNat)
  else if 'a' ≤ c ∧ c ≤ 'f' then some (c.toNat - 'a'.toNat + 10)
  else if 'A' ≤ c ∧ c ≤ 'F' then some (c.toNat - 'A'.toNat + 10)
  else none

/-- Percent-decoding step of `decodeURIComponent`: turns `%XX` pairs into
bytes and other characters into their UTF-8 bytes. `none` models a thrown
`URIError` (malformed escape). -/
def percentDecodeBytes : List Char → Option (List Nat)
  | [] => some []
  | '%' :: h :: l :: rest => do
      let hv ← hexDigit? h
      let lv ← hexDigit? l
      let tail ← percentDecodeBytes rest
      pure ((hv * 16 + lv) :: tail)
  | '%' :: _ => none
  | c :: rest => do
      let tail ← percentDecodeBytes rest
      pure (utf8EncodeCharNat c ++ tail)

/-- UTF-8 decoding of a byte list; `none` models a `URIError` on an invalid
sequence. -/
def utf8Decode : List Nat → Option (List Char)
  | [] => some []
  | b :: rest =>
      if b < 0x80 then do
        let tail ← utf8Decode rest
        pure (Char.ofNat b :: tail)
      else if 0xC0 ≤ b ∧ b < 0xE0 then
        match rest with
        | c1 :: rest1 =>
            if 0x80 ≤ c1 ∧ c1 < 0xC0 then do
              let tail ← utf8Decode rest1
              pure (Char.ofNat ((b - 0xC0) * 64 + (c1 - 0x80)) :: tail)
            else none
        | _ => none
      else if 0xE0 ≤ b ∧ b < 0xF0 then
        match rest with
        | c1 :: c2 :: rest2 =>
            if (0x80 ≤ c1 ∧ c1 < 0xC0) ∧ (0x80 ≤ c2 ∧ c2 < 0xC0) then do
              let tail ← utf8Decode rest2
              pure (Char.ofNat ((b - 0xE0) * 4096 + (c1 - 0x80) * 64 + (c2 - 0x80)) :: tail)
            else none
        | _ => none
      else if 0xF0 ≤ b ∧ b < 0xF8 then
        match rest with
        | c1 :: c2 :: c3 :: rest3 =>
            if (0x80 ≤ c1 ∧ c1 < 0xC0) ∧ (0x80 ≤ c2 ∧ c2 < 0xC0) ∧ (0x80 ≤ c3 ∧ c3 < 0xC0) then do
              let tail ← utf8Decode rest3
              pure (Char.ofNat ((b - 0xF0) * 262144 + (c1 - 0x80) * 4096 +
                (c2 - 0x80) * 64 + (c3 - 0x80)) :: tail)
            else none
        | _ => none
      else none

/-- Model of the JS builtin `decodeURIComponent`; `none` models a thrown
`URIError`. A string without `%` decodes to itself. -/
def jsDecodeURIComponent (s : String) : Option String := do
  let bytes ← percentDecodeBytes s.toList
  let chars ← utf8Decode bytes
  pure (String.mk chars)

/-! ### Model of the JS builtin `JSON.parse`

Executable recursive-descent parser over `List Char`, structural on a fuel
argument (callers pass a fuel larger than the input length, which always
suffices since every step consumes input). `none` models a thrown
`SyntaxError`. Duplicate object keys follow JS semantics (later wins). -/

/-- JS object property assignment: update the first entry with this key in
place, else append (JS objects keep first-insertion position on update). -/
def jsObjSet (fields : List (String × JSVal)) (k : String) (v : JSVal) :
    List (String × JSVal) :=
  if fields.any (fun p => p.1 == k) then
    fields.map (fun p => if p.1 == k then (k, v) else p)
  else fields ++ [(k, v)]

def jsonWs (c : Char) : Bool :=
  c = ' ' || c = '\t' || c = '\n' || c = '\r'

def jsonSkipWs (cs : List Char) : List Char := cs.dropWhile jsonWs

/-- JSON string-literal body after the opening quote. -/
def parseJsonStringBody : Nat → List Char → Option (String × List Char)
  | 0, _ => none
  | _ + 1, [] => none
  | fuel + 1, c :: rest =>
    if c = '"' then some ("", rest)
    else if c = '\\' then
      match rest with
      | [] => none
      | e :: rest1 =>
        let dec : Option (Char × List Char) :=
          if e = '"' then some ('"', rest1)
          else if e = '\\' then some ('\\', rest1)
          else if e = '/' then some ('/', rest1)
          else if e = 'n' then some ('\n', rest1)
          else if e = 't' then some ('\t', rest1)
          else if e = 'r' then some ('\r', rest1)
          else if e = 'b' then some ((Char.ofNat 8), rest1)
          else if e = 'f' then some ((Char.ofNat 12), rest1)
          else if e = 'u' then
            match rest1 with
            | h1 :: h2 :: h3 :: h4 :: rest2 => do
                let v1 ← hexDigit? h1
                let v2 ← hexDigit? h2
                let v3 ← hexDigit? h3
                let v4 ← hexDigit? h4
                pure (Char.ofNat (((v1 * 16 + v2) * 16 + v3) * 16 + v4), rest2)
            | _ => none
          else none
        match dec with
        | none => none
        | some (ch, rest2) => do
            let (s, rest3) ← parseJsonStringBody fuel rest2
            pure (String.singleton ch ++ s, rest3)
    else do
      let (s, rest1) ← parseJsonStringBody fuel rest
      pure (String.singleton c ++ s, rest1)

/-- JSON number starting at the given characters. -/
def parseJsonNumber (cs : List Char) : Option (ℚ × List Char) :=
  let (neg, l) := match cs with
    | '-' :: r => (true, r)
    | r => (false, r)
  let intPart := l.takeWhile Char.isDigit
  if intPart.isEmpty then none
  else
    let rest0 := l.dropWhile Char.isDigit
    let afterFrac : ℚ × List Char :=
      match rest0 with
      | '.' :: fr =>
          let fracPart := fr.takeWhile Char.isDigit
          if fracPart.isEmpty then ((natOfDigits intPart : ℚ), rest0)
          else
            ((natOfDigits intPart : ℚ) +
              (natOfDigits fracPart : ℚ) / ((10 : ℚ) ^ fracPart.length),
             fr.dropWhile Char.isDigit)
      | _ => ((natOfDigits intPart : ℚ), rest0)
    let afterExp : ℚ × List Char :=
      match afterFrac.2 with
      | e :: sgn :: ds =>
          if (e = 'e' ∨ e = 'E') then
            let signedTail :=
              if sgn = '-' then (true, ds)
              else if sgn = '+' then (false, ds)
              else (false, sgn :: ds)
            let expPart := signedTail.2.takeWhile Char.isDigit
            if expPart.isEmpty then afterFrac
            else
              let e10 : ℚ := (10 : ℚ) ^ natOfDigits expPart
              (if signedTail.1 then afterFrac.1 / e10 else afterFrac.1 * e10,
               signedTail.2.dropWhile Char.isDigit)
          else afterFrac
      | _ => afterFrac
    some ((if neg then -afterExp.1 else afterExp.1), afterExp.2)

mutual

def parseJsonVal : Nat → List Char → Option (JSVal × List Char)
  | 0, _ => none
  | fuel + 1, cs =>
    match jsonSkipWs cs with
    | 'n' :: 'u' :: 'l' :: 'l' :: rest => some (JSVal.vNull, rest)
    | 't' :: 'r' :: 'u' :: 'e' :: rest => some (JSVal.vBool true, rest)
    | 'f' :: 'a' :: 'l' :: 's' :: 'e' :: rest => some (JSVal.vBool false, rest)
    | '"' :: rest => do
        let (s, rest1) ← parseJsonStringBody (fuel + 1) rest
        pure (JSVal.vStr s, rest1)
    | '[' :: rest =>
        (match jsonSkipWs rest with
         | ']' :: rest1 => some (JSVal.vArr [], rest1)
         | _ => do
            let (xs, rest1) ← parseJsonItems fuel rest
            pure (JSVal.vArr xs, rest1))
    | '{' :: rest =>
        (match jsonSkipWs rest with
         | '}' :: rest1 => some (JSVal.vObj [], rest1)
         | _ => do
            let (fs, rest1) ← parseJsonMembers fuel rest []
            pure (JSVal.vObj fs, rest1))
    | l => do
        let (q, rest) ← parseJsonNumber l
        pure (JSVal.vNum q, rest)

def parseJsonItems : Nat → List Char → Option (List JSVal × List Char)
  | 0, _ => none
  | fuel + 1, cs => do
      let (v, rest) ← parseJsonVal fuel cs
      match jsonSkipWs rest with
      | ',' :: rest1 => do
          let (xs, rest2) ← parseJsonItems fuel rest1
          pure (v :: xs, rest2)
      | ']' :: rest1 => pure ([v], rest1)
      | _ => none

def parseJsonMembers : Nat → List Char → List (String × JSVal) →
    Option (List (String × JSVal) × List Char)
  | 0, _, _ => none
  | fuel + 1, cs, acc =>
      match jsonSkipWs cs with
      | '"' :: rest => do
          let (k, rest1) ← parseJsonStringBody (fuel + 1) rest
          match jsonSkipWs rest1 with
          | ':' :: rest2 => do
              let (v, rest3) ← parseJsonVal fuel rest2
              let acc := jsObjSet acc k v
              (match jsonSkipWs rest3 with
               | ',' :: rest4 => parseJsonMembers fuel rest4 acc
               | '}' :: rest4 => pure (acc, rest4)
               | _ => none)
          | _ => none
      | _ => none

end

/-- Model of `JSON.parse`; `none` models a thrown `SyntaxError`. -/
def jsonParse (s : String) : Option JSVal := do
  let (v, rest) ← parseJsonVal (2 * s.length + 8) s.toList
  if (jsonSkipWs rest).isEmpty then pure v else none

/-! ### Schema model (`SchemaType`, src/types/index.ts)

The TS `SchemaType` is a record with a `type` tag and optional per-tag
payload fields (`items`, `properties`, `required`, `oneOf`, `elements`);
the validator only ever reads the payload fields named by the tag, so the
embedding is a tagged variant keeping each tag's payload (with `Option`
mirroring the optionality of the TS fields). -/

inductive SchemaType : Type where
  | string
  | number
  | boolean
  | array (items : Option SchemaType)
  | object (properties : Option (List (String × SchemaType)))
      (required : Option (List String))
  | null
  | file
  | union (oneOf : Option (List SchemaType))
  | dataStream
  | fileStream
  | voidTy
  | tuple (elements : Option (List SchemaType))

mutual

/-- Structural size of a schema, used as recursion fuel for the validator
(every sub-schema has strictly smaller size). -/
def schemaSize : SchemaType → Nat
  | .string => 1
  | .number => 1
  | .boolean => 1
  | .null => 1
  | .file => 1
  | .dataStream => 1
  | .fileStream => 1
  | .voidTy => 1
  | .array none => 2
  | .array (some it) => 2 + schemaSize it
  | .object none _ => 2
  | .object (some props) _ => 2 + schemaSizeEntries props
  | .union none => 2
  | .union (some opts) => 2 + schemaSizeList opts
  | .tuple none => 2
  | .tuple (some els) => 2 + schemaSizeList els

def schemaSizeEntries : List (String × SchemaType) → Nat
  | [] => 1
  | (_, s) :: rest => 1 + schemaSize s + schemaSizeEntries rest

def schemaSizeList : List SchemaType → Nat
  | [] => 1
  | s :: rest => 1 + schemaSize s + schemaSizeList rest

end

/-- The `type` tag string of a schema. -/
def schemaTag : SchemaType → String
  | .string => "string"
  | .number => "number"
  | .boolean => "boolean"
  | .array _ => "array"
  | .object _ _ => "object"
  | .null => "null"
  | .file => "file"
  | .union _ => "union"
  | .dataStream => "dataStream"
  | .fileStream => "fileStream"
  | .voidTy => "void"
  | .tuple _ => "tuple"

/-- Parameter kind (`ParameterMetadata.type` in src/metadata.ts). -/
inductive ParamKind : Type where
  | body | query | param | header | file | ctx | rawBody
deriving DecidableEq, Repr

def paramKindName : ParamKind → String
  | .body => "body"
  | .query => "query"
  | .param => "param"
  | .header => "header"
  | .file => "file"
  | .ctx => "ctx"
  | .rawBody => "rawBody"

/-- Errors thrown during validation: `badRequest` models a thrown
`BadRequestError`; `typeError` models a native `TypeError` (e.g. using the
`in` operator on a primitive); `outOfFuel` is an unreachable marker used by
the structural-fuel recursion. -/
inductive VErr : Type where
  | badRequest (message : String)
  | typeError (message : String)
  | outOfFuel
deriving DecidableEq, Repr

def VErr.message : VErr → String
  | .badRequest m => m
  | .typeError m => m
  | .outOfFuel => "out of fuel"

/-- Test of the regex `^-?\d+(\.\d+)?$` used by `decodeQueryParam`. -/
def numericLiteralTest (s : String) : Bool :=
  let l := match s.toList with
    | '-' :: r => r
    | r => r
  let intPart := l.takeWhile Char.isDigit
  let rest := l.dropWhile Char.isDigit
  !intPart.isEmpty &&
    (rest.isEmpty ||
      (match rest with
       | '.' :: fr => !fr.isEmpty && fr.all Char.isDigit
       | _ => false))

/-- `decodeQueryParam` (src/adapters/validation.ts): URL-decode, then
opportunistically coerce numeric-looking strings to numbers and
`true`/`false` (case-insensitive) to booleans. -/
def decodeQueryParam (value : String) : Except VErr JSVal :=
  match jsDecodeURIComponent value with
  | none =>
      .error (.badRequest ("Failed to decode query parameter: " ++ value))
  | some decoded =>
      if numericLiteralTest decoded then
        -- `Number(decoded)` on a string matching the regex above; the
        -- fallback 0 is unreachable since such strings always parse.
        .ok (JSVal.vNum ((jsNumberOfString decoded).getD 0))
      else if strToLower decoded = "true" then .ok (JSVal.vBool true)
      else if strToLower decoded = "false" then .ok (JSVal.vBool false)
      else .ok (JSVal.vStr decoded)

/-- JS falsiness of a value (used by the `file` short-circuit). -/
def jsFalsy : JSVal → Bool
  | JSVal.vStr s => s = ""
  | JSVal.vNum q => q = 0
  | JSVal.vBool b => !b
  | JSVal.vNull => true
  | JSVal.vUndefined => true
  | JSVal.vArr _ => false
  | JSVal.vObj _ => false

/-- The JS `key in value` check: own-property test for objects, canonical
index or `length` for arrays, `TypeError` for primitives (including the
`null` that `JSON.parse` can produce inside the object branch). -/
def jsInOp : JSVal → String → Except VErr Bool
  | JSVal.vObj fields, k => .ok (fields.any (fun p => p.1 == k))
  | JSVal.vArr xs, k =>
      .ok (k == "length" ||
        (match strToNat? k with
         | some i => decide (toString i = k ∧ i < xs.length)
         | none => false))
  | _, _ => .error (.typeError "Cannot use in operator to search in a non-object")

/-- JS member read `value[key]` for values that passed `jsInOp`. -/
def jsGetProp : JSVal → String → JSVal
  | JSVal.vObj fields, k => (fields.lookup k).getD JSVal.vUndefined
  | JSVal.vArr xs, k =>
      if k == "length" then JSVal.vNum xs.length
      else
        (match strToNat? k with
         | some i => (xs.get? i).getD JSVal.vUndefined
         | none => JSVal.vUndefined)
  | _, _ => JSVal.vUndefined

/-- Does `schema.required` (an optional array) contain this key
(`schema.required?.includes(key)`)? -/
def requiredHas (required : Option (List String)) (k : String) : Bool :=
  match required with
  | none => false
  | some l => l.contains k

/-- The per-message path suffix ``` at path "p"``` (empty for the top level). -/
def pathDisplayOf (path : String) : String :=
  if path = "" then "" else " at path \"" ++ path ++ "\""

/-- The dotted property path `path.key` (bare `key` at the top level). -/
def propPathOf (path key : String) : String :=
  if path = "" then key else path ++ "." ++ key

/-- The message of the missing-required-property error. -/
def missingPropMsg (key path : String) : String :=
  "Missing required property \"" ++ key ++ "\"" ++
    (if path = "" then "" else " in " ++ path)

/-- Element path `p[i]` used for array/tuple error messages. -/
def itemPathOf (path : String) (i : Nat) : String :=
  path ++ "[" ++ toString i ++ "]"

/-- The `object` case of `validateAndTransform`: iterate the declared
properties in order; a declared-and-required key absent from the input
raises; present declared keys are validated recursively and copied, all
other input keys are dropped. `validate` is the recursive call (with the
paramType already applied). -/
def validateProps (validate : JSVal → SchemaType → String → Except VErr JSVal)
    (required : Option (List String)) (objValue : JSVal) (path : String) :
    List (String × SchemaType) → Except VErr (List (String × JSVal))
  | [] => .ok []
  | (key, propSchema) :: rest => do
      let propPath := propPathOf path key
      if requiredHas required key then do
        let present ← jsInOp objValue key
        if present then Except.ok ()
        else Except.error (VErr.badRequest (missingPropMsg key path))
      else Except.ok ()
      let present ← jsInOp objValue key
      if present then do
        let x ← validate (jsGetProp objValue key) propSchema propPath
        let restR ← validateProps validate required objValue path rest
        Except.ok ((key, x) :: restR)
      else validateProps validate required objValue path rest

/-- The `union` case: first successful option wins; if none succeeds, the
messages of all failures are joined. -/
def firstOkOrJoinErrors (pathDisplay : String) :
    List (Except VErr JSVal) → List String → Except VErr JSVal
  | [], errs =>
      .error (.badRequest ("Value does not match any type in union" ++ pathDisplay ++
        ". Errors: " ++ String.intercalate ", " errs))
  | .ok v :: _, _ => .ok v
  | .error e :: rest, errs => firstOkOrJoinErrors pathDisplay rest (errs ++ [e.message])

/-- The schema dispatch of `validateAndTransform` after null-handling and
query coercion (the `switch (schema.type)` of the source together with the
preceding file short-circuit); `recur` is the recursive call with the
paramType already fixed. -/
def validateSwitch (recur : JSVal → SchemaType → String → Except VErr JSVal)
    (value : JSVal) (schema : SchemaType) (paramType : ParamKind)
    (path : String) : Except VErr JSVal :=
  let pathDisplay := pathDisplayOf path
  if schemaTag schema = "file" ∨ paramType = .file then
    if jsFalsy value then .error (.badRequest "File is required")
    else .ok value
  else
    match schema with
    | .string =>
        (match value with
         | JSVal.vStr s => .ok (JSVal.vStr s)
         | v => .error (.badRequest ("Expected string" ++ pathDisplay ++
             ", got " ++ jsTypeof v)))
    | .number =>
        (match value with
         | JSVal.vStr s =>
             (match jsNumberOfString s with
              | none => .error (.badRequest ("Invalid number format" ++
                  pathDisplay ++ ": " ++ s))
              | some num => .ok (JSVal.vNum num))
         | JSVal.vNum q => .ok (JSVal.vNum q)
         | v => .error (.badRequest ("Expected number" ++ pathDisplay ++
             ", got " ++ jsTypeof v)))
    | .boolean =>
        (match value with
         | JSVal.vStr s =>
             if strToLower s = "true" then .ok (JSVal.vBool true)
             else if strToLower s = "false" then .ok (JSVal.vBool false)
             else .error (.badRequest ("Invalid boolean value" ++ pathDisplay ++
               ": " ++ s))
         | JSVal.vBool b => .ok (JSVal.vBool b)
         | v => .error (.badRequest ("Expected boolean" ++ pathDisplay ++
             ", got " ++ jsTypeof v)))
    | .array items =>
        let validateItems (xs : List JSVal) : Except VErr JSVal :=
          match items with
          | some itemSchema =>
              (xs.enum.mapM (fun p =>
                recur p.2 itemSchema (itemPathOf path p.1))).map JSVal.vArr
          | none =>
              -- `schema.items!` is undefined: the recursive call reads
              -- `schema.type` off `undefined` and crashes per element.
              if xs.isEmpty then .ok (JSVal.vArr [])
              else .error (.typeError "Cannot read properties of undefined")
        (match value with
         | JSVal.vArr xs => validateItems xs
         | JSVal.vStr s =>
             if paramType = .query then
               (match jsonParse s with
                | some (JSVal.vArr xs) => validateItems xs
                | some _ => .error (.badRequest ("Invalid array format" ++ pathDisplay))
                | none => .error (.badRequest ("Invalid array format" ++ pathDisplay)))
             else .error (.badRequest ("Expected array" ++ pathDisplay ++
               ", got string"))
         | v => .error (.badRequest ("Expected array" ++ pathDisplay ++
             ", got " ++ jsTypeof v)))
    | .object properties required =>
        -- note: the parsed JSON of a query string is used as-is, with
        -- no re-check that it is an object (unlike array/tuple).
        let doProps (v2 : JSVal) : Except VErr JSVal :=
          match properties with
          | none => .ok (JSVal.vObj [])
          | some props =>
              (validateProps recur required v2 path props).map JSVal.vObj
        (match value with
         | JSVal.vStr s =>
             if paramType = .query then
               (match jsonParse s with
                | some v2 => doProps v2
                | none => .error (.badRequest ("Invalid object format" ++ pathDisplay)))
             else .error (.badRequest ("Expected object" ++ pathDisplay ++
               ", got string"))
         | JSVal.vObj fields => doProps (JSVal.vObj fields)
         | JSVal.vArr xs => doProps (JSVal.vArr xs)
         | v => .error (.badRequest ("Expected object" ++ pathDisplay ++
             ", got " ++ jsTypeof v)))
    | .union oneOf =>
        (match oneOf with
         | none => .error (.badRequest ("Invalid union type definition" ++ pathDisplay))
         | some opts =>
             firstOkOrJoinErrors pathDisplay
               (opts.map (fun sub => recur value sub path)) [])
    | .tuple elements =>
        let validateTuple (xs : List JSVal) : Except VErr JSVal :=
          match elements with
          | none => .error (.badRequest ("Invalid tuple schema definition" ++ pathDisplay))
          | some els =>
              if els.isEmpty then
                .error (.badRequest ("Invalid tuple schema definition" ++ pathDisplay))
              else if xs.length ≠ els.length then
                .error (.badRequest ("Tuple length mismatch" ++ pathDisplay ++
                  ": expected " ++ toString els.length ++ ", got " ++
                  toString xs.length))
              else
                ((xs.zip els).enum.mapM (fun p =>
                  recur p.2.1 p.2.2 (itemPathOf path p.1))).map JSVal.vArr
        (match value with
         | JSVal.vArr xs => validateTuple xs
         | JSVal.vStr s =>
             if paramType = .query then
               (match jsonParse s with
                | some (JSVal.vArr xs) => validateTuple xs
                | some _ => .error (.badRequest ("Invalid tuple format" ++ pathDisplay))
                | none => .error (.badRequest ("Invalid tuple format" ++ pathDisplay)))
             else .error (.badRequest ("Expected tuple (array)" ++ pathDisplay ++
               ", got string"))
         | v => .error (.badRequest ("Expected tuple (array)" ++ pathDisplay ++
             ", got " ++ jsTypeof v)))
    | .null => .ok JSVal.vNull
    | other =>
        .error (.badRequest ("Unsupported type: " ++ schemaTag other ++
          " for " ++ paramKindName paramType))

/-- One step of `validateAndTransform` (src/adapters/validation.ts lines
704-930): the paramType pass-through, null handling, query coercion and the
schema dispatch, with the recursive call abstracted as `recur`. -/
def validateBody (recur : JSVal → SchemaType → String → Except VErr JSVal)
    (value : JSVal) (schema : SchemaType) (paramType : ParamKind)
    (path : String) : Except VErr JSVal :=
    if paramType = .ctx ∨ paramType = .rawBody then .ok value
    else
      let pathDisplay := pathDisplayOf path
      let contextDisplay := if path = "" then paramKindName paramType else path
      match value with
      | JSVal.vUndefined =>
          if schemaTag schema ≠ "null" then
            .error (.badRequest ("Value is required for " ++ contextDisplay ++ pathDisplay))
          else .ok JSVal.vNull
      | JSVal.vNull =>
          if schemaTag schema ≠ "null" then
            .error (.badRequest ("Value is required for " ++ contextDisplay ++ pathDisplay))
          else .ok JSVal.vNull
      | value0 => do
        let value ← (match value0 with
          | JSVal.vStr s =>
              if paramType = .query then decodeQueryParam s else .ok value0
          | _ => .ok value0)
        validateSwitch recur value schema paramType path

/-- The structural-fuel recursion through `validateBody`; the recursive
call fixes the same `paramType` (the source always passes it through). -/
def validateFuel : Nat → JSVal → SchemaType → ParamKind → String →
    Except VErr JSVal
  | 0, _, _, _, _ => .error .outOfFuel
  | Nat.succ fuel, value, schema, paramType, path =>
      validateBody (fun v sch p => validateFuel fuel v sch paramType p)
        value schema paramType path

/-- `validateAndTransform(value, schema, paramType, path)`; the TS default
`path = ''` is passed explicitly by callers here. -/
def validateAndTransform (value : JSVal) (schema : SchemaType)
    (paramType : ParamKind) (path : String) : Except VErr JSVal :=
  validateFuel (schemaSize schema) value schema paramType path

/-! ### Metadata registry (`MetadataStorage`, src/metadata.ts)

JS `Map`s are modelled as association lists in insertion order. `Map.set`
updates an existing key in place (keeping its position) or appends;
`Map.delete` removes the entry (the filter below is equivalent because the
API keeps keys unique); `Array.from(map.values())` is the list of values in
insertion order. Controller classes are identified by a `ClassRef`
(identity plus the `name` used in error messages); middleware and handler
function objects are opaque references. -/

/-- A controller class: identity (`id`) plus `Function.name`. -/
structure ClassRef : Type where
  id : Nat
  name : String
deriving DecidableEq, Repr

/-- Opaque reference to a middleware function. -/
abbrev MwRef := Nat

/-- Opaque reference to a handler function. -/
abbrev HandlerRef := Nat

/-- Opaque stream-options payload. `src/types/stream.ts` is not among the
sources; no claim depends on its fields, so the payload is opaque. -/
abbrev StreamOptions := Nat

inductive HttpMethod : Type where
  | GET | POST | PUT | DELETE | PATCH
deriving DecidableEq, Repr

def httpMethodName : HttpMethod → String
  | .GET => "GET"
  | .POST => "POST"
  | .PUT => "PUT"
  | .DELETE => "DELETE"
  | .PATCH => "PATCH"

inductive StreamType : Type where
  | dataStream | fileStream
deriving DecidableEq, Repr

/-- `{ options, streamType }` recorded by `addStreamInfo`. -/
structure StreamInfo : Type where
  options : StreamOptions
  streamType : StreamType
deriving DecidableEq, Repr

/-- `ParameterMetadata.options`. -/
structure FileOptions : Type where
  maxFileSize : Option Nat
  forceArray : Option Bool
  maxFiles : Option Nat
deriving DecidableEq, Repr

/-- `ParameterMetadata` (src/metadata.ts). -/
structure ParameterMetadata : Type where
  name : Option String
  required : Bool
  schema : SchemaType
  parameterIndex : Nat
  type : ParamKind
  options : Option FileOptions

/-- `RouteMetadata` (src/metadata.ts). -/
structure RouteMetadata : Type where
  path : String
  handler : HandlerRef
  methodName : String
  method : HttpMethod
  stream : Option StreamInfo
  returnType : SchemaType
  parameters : List ParameterMetadata
  middlewares : List MwRef
  security : List String

/-- The argument of `addRoute`:
`Omit<RouteMetadata, 'parameters' | 'middlewares' | 'security'>` (callers
never pass `stream`; it is overwritten from pending stream info anyway). -/
structure RouteInput : Type where
  path : String
  handler : HandlerRef
  methodName : String
  method : HttpMethod
  returnType : SchemaType

/-- The `defaultHandler` component of `ControllerMetadata`. -/
structure DefaultHandlerMeta : Type where
  methodName : String
  handler : HandlerRef
  middlewares : List MwRef

/-- `ControllerMetadata` (src/metadata.ts). -/
structure ControllerMetadata : Type where
  path : String
  routes : List RouteMetadata
  middlewares : List MwRef
  security : List String
  defaultHandler : Option DefaultHandlerMeta

/-- Association-list lookup (JS `Map.get`). -/
def mlookup [DecidableEq κ] : List (κ × β) → κ → Option β
  | [], _ => none
  | (k1, v) :: rest, k => if k1 = k then some v else mlookup rest k

/-- JS `Map.has`. -/
def mcontains [DecidableEq κ] (m : List (κ × β)) (k : κ) : Bool :=
  (mlookup m k).isSome

/-- JS `Map.set`: update in place keeping the position, else append. -/
def mset [DecidableEq κ] : List (κ × β) → κ → β → List (κ × β)
  | [], k, v => [(k, v)]
  | (k1, v1) :: rest, k, v =>
      if k1 = k then (k, v) :: rest else (k1, v1) :: mset rest k v

/-- JS `Map.delete` (keys are unique on every state reachable through the
API, so removing every entry with the key is equivalent). -/
def mdelete [DecidableEq κ] (m : List (κ × β)) (k : κ) : List (κ × β) :=
  m.filter (fun p => ¬ p.1 = k)

/-- JS `Array.from(map.values())`. -/
def mvalues (m : List (κ × β)) : List β := m.map (fun p => p.2)

/-- The process-wide `MetadataStorage` singleton state. -/
structure Storage : Type where
  controllers : List (ClassRef × ControllerMetadata)
  pendingRoutes : List (ClassRef × List (String × RouteMetadata))
  pendingParameters : List (ClassRef × List (String × List ParameterMetadata))
  pendingStreams : List (ClassRef × List (String × StreamInfo))
  pendingMiddlewares : List (ClassRef × List (String × List MwRef))
  pendingDefaultHandlers : List (ClassRef × (String × HandlerRef))
  pendingSecurity : List (ClassRef × List (String × List String))

def emptyStorage : Storage :=
  ⟨[], [], [], [], [], [], []⟩

/-- Replace the first route with this `methodName` (JS
`meta.routes.find(...)` followed by a mutation of the found object). -/
def updateFirstRoute (m : String) (f : RouteMetadata → RouteMetadata) :
    List RouteMetadata → List RouteMetadata
  | [] => []
  | r :: rest =>
      if r.methodName = m then f r :: rest
      else r :: updateFirstRoute m f rest

/-- `addMiddleware(target, methodName, ...mw)` (src/metadata.ts lines
38-71): grafts onto the live declaration when the class is already
finalized (class-level prepends everywhere), otherwise appends to pending
state under the key `methodName ?? '__class'`. -/
def addMiddleware (s : Storage) (target : ClassRef)
    (methodName : Option String) (mw : List MwRef) : Except String Storage :=
  match mlookup s.controllers target with
  | some meta =>
      (match methodName with
       | some m =>
           if (meta.routes.find? (fun r => r.methodName = m)).isSome then
             let push := fun (r : RouteMetadata) => { r with middlewares := r.middlewares ++ mw }
             let meta2 := { meta with routes := updateFirstRoute m push meta.routes }
             .ok { s with controllers := mset s.controllers target meta2 }
           else
             .error ("@Use on \"" ++ m ++ "\" but route not found in " ++ target.name)
       | none =>
           let dh2 := meta.defaultHandler.map (fun dh => { dh with middlewares := mw ++ dh.middlewares })
           let routes2 := meta.routes.map (fun r => { r with middlewares := mw ++ r.middlewares })
           let meta2 := { meta with middlewares := mw ++ meta.middlewares, defaultHandler := dh2, routes := routes2 }
           .ok { s with controllers := mset s.controllers target meta2 })
  | none =>
      let store := (mlookup s.pendingMiddlewares target).getD []
      let key := methodName.getD "__class"
      let store := mset store key ((mlookup store key).getD [] ++ mw)
      .ok { s with pendingMiddlewares := mset s.pendingMiddlewares target store }

/-- `addSecurity(target, methodName, ...schemeNames)` (src/metadata.ts
lines 73-99): same live-vs-pending duality as middleware, but appends. -/
def addSecurity (s : Storage) (target : ClassRef)
    (methodName : Option String) (schemeNames : List String) :
    Except String Storage :=
  match mlookup s.controllers target with
  | some meta =>
      (match methodName with
       | some m =>
           if (meta.routes.find? (fun r => r.methodName = m)).isSome then
             let push := fun (r : RouteMetadata) => { r with security := r.security ++ schemeNames }
             let meta2 := { meta with routes := updateFirstRoute m push meta.routes }
             .ok { s with controllers := mset s.controllers target meta2 }
           else
             .error ("@Security on \"" ++ m ++ "\" but route not found in " ++ target.name)
       | none =>
           let routes2 := meta.routes.map (fun r => { r with security := r.security ++ schemeNames })
           let meta2 := { meta with security := meta.security ++ schemeNames, routes := routes2 }
           .ok { s with controllers := mset s.controllers target meta2 })
  | none =>
      let store := (mlookup s.pendingSecurity target).getD []
      let key := methodName.getD "__class"
      let store := mset store key ((mlookup store key).getD [] ++ schemeNames)
      .ok { s with pendingSecurity := mset s.pendingSecurity target store }

/-- `addStreamInfo` (src/metadata.ts lines 493-502). Never throws and in
particular performs no finalization check. -/
def addStreamInfo (s : Storage) (target : ClassRef) (methodName : String)
    (streamType : StreamType) (options : StreamOptions) : Storage :=
  let streams := (mlookup s.pendingStreams target).getD []
  let streams := mset streams methodName ⟨options, streamType⟩
  { s with pendingStreams := mset s.pendingStreams target streams }

/-- `addDefaultHandler` (src/metadata.ts lines 361-379). -/
def addDefaultHandler (s : Storage) (target : ClassRef) (methodName : String)
    (handler : HandlerRef) : Except String Storage :=
  if (mlookup s.controllers target).isSome then
    .error ("ERROR adding default handler to controller " ++ target.name ++
      ", controller already defined")
  else if (mlookup s.pendingDefaultHandlers target).isSome then
    .error ("ERROR adding default handler " ++ methodName ++ " to controller " ++
      target.name ++ ", default handler already defined")
  else
    let updated := mset s.pendingDefaultHandlers target (methodName, handler)
    .ok { s with pendingDefaultHandlers := updated }

/-- Route-path placeholder scanner: the JS global-regex match
`path.match(/:first cont*/g)` with the leading `:` stripped (the source
maps `substring(1)` over the matches). Scans left to right, taking each
greedy match and resuming after it. Structural on a fuel argument; fuel
`≥ length` always suffices since every step consumes a character. -/
def scanPathTokens (first cont : Char → Bool) : Nat → List Char → List String
  | 0, _ => []
  | _ + 1, [] => []
  | fuel + 1, a :: rest =>
      if a = ':' then
        match rest with
        | [] => []
        | c :: cs =>
            if first c then
              String.mk (c :: cs.takeWhile cont) ::
                scanPathTokens first cont fuel (cs.dropWhile cont)
            else scanPathTokens first cont fuel (c :: cs)
      else scanPathTokens first cont fuel rest

/-- First character class of the `addRoute` placeholder regex
`/:[a-zA-Z_$][a-zA-Z0-9_$]*/g`. -/
def wideFirst (c : Char) : Bool := c.isAlpha || c = '_' || c = '$'

/-- Continuation character class of the `addRoute` placeholder regex. -/
def wideCont (c : Char) : Bool := c.isAlpha || c.isDigit || c = '_' || c = '$'

/-- Placeholder names in a route path as extracted by `addRoute`
(src/metadata.ts lines 231-233). -/
def extractRoutePathParams (p : String) : List String :=
  scanPathTokens wideFirst wideCont p.length p.data

/-- Placeholder names as extracted by `validateParamNameAgainstRoute`
(src/metadata.ts line 514), whose regex `/:[a-zA-Z]+/g` admits letters
only. -/
def extractLetterPathParams (p : String) : List String :=
  scanPathTokens Char.isAlpha Char.isAlpha p.length p.data

/-- JS string interpolation of a possibly-undefined name. -/
def optNameStr (o : Option String) : String := o.getD "undefined"

/-- `validateParameterCombination` (src/metadata.ts lines 381-463),
returning the thrown message if any. In this model a parameter always
carries a well-formed schema, so the TS `!schema || typeof schema !==
'object' || !('type' in schema)` disjuncts are never the failing ones. -/
def validateParameterCombination (methodName : String)
    (newParam : ParameterMetadata) (existingParams : List ParameterMetadata) :
    Option String :=
  if newParam.type = .body ∧ existingParams.any (fun p => p.type = .body) then
    some ("ERROR in " ++ methodName ++ ": multiple @Body decorators are not allowed")
  else if newParam.type = .param ∧
      (existingParams.find? (fun p =>
        p.type = .param ∧ p.name = newParam.name)).isSome then
    some ("ERROR in " ++ methodName ++ ": duplicate @Param decorator for parameter \"" ++
      optNameStr newParam.name ++ "\"")
  else if (newParam.type = .body ∧ existingParams.any (fun p => p.type = .query)) ∨
      (newParam.type = .query ∧ existingParams.any (fun p => p.type = .body)) then
    some ("ERROR in " ++ methodName ++ ": cannot combine @Body with @Query parameters")
  else if ¬ newParam.required ∧ newParam.type ≠ .query ∧ newParam.type ≠ .file then
    some ("ERROR in " ++ methodName ++ ": only @Query and @File parameters can be optional")
  else if (newParam.type = .query ∨ newParam.type = .param) ∧
      schemaTag newParam.schema ≠ "string" ∧ schemaTag newParam.schema ≠ "number" then
    some ("ERROR in " ++ methodName ++ ": @" ++
      (if newParam.type = .query then "Query" else "Param") ++
      " parameters must be of type string or number, got " ++
      schemaTag newParam.schema)
  else if newParam.type = .body ∧ schemaTag newParam.schema ≠ "object" then
    some ("ERROR in " ++ methodName ++ ": @Body parameter must be of type object, got " ++
      schemaTag newParam.schema)
  else none

/-- `validateParamNameAgainstRoute` (src/metadata.ts lines 504-546): the
best-effort cross-check run when a `param`-kind parameter is recorded while
its route is already pending; uses the letters-only placeholder regex. -/
def validateParamNameAgainstRoute (s : Storage) (target : ClassRef)
    (methodName : String) (paramName : Option String) : Option String :=
  match (mlookup s.pendingRoutes target).bind (fun m => mlookup m methodName) with
  | none => none
  | some route =>
      let pathParams := extractLetterPathParams route.path
      if pathParams.isEmpty then
        some ("ERROR in " ++ methodName ++ ": @Param decorator used but route \"" ++
          route.path ++ "\" has no parameters")
      else
        match paramName with
        | none =>
            some ("ERROR in " ++ methodName ++
              ": @Param decorator requires a name when used with route parameters")
        | some pname =>
            if ¬ pathParams.contains pname then
              some ("ERROR in " ++ methodName ++ ": parameter name \"" ++ pname ++
                "\" doesn't match any route parameter in path \"" ++ route.path ++ "\"")
            else
              let parameters :=
                ((mlookup s.pendingParameters target).bind
                  (fun m => mlookup m methodName)).getD []
              if (parameters.find? (fun p =>
                  p.type = .param ∧ p.name = some pname)).isSome then
                some ("ERROR in " ++ methodName ++ ": duplicate @Param(\"" ++ pname ++
                  "\") decorator. Each route parameter can only be used once.")
              else none

/-- `addParameter` (src/metadata.ts lines 332-359). -/
def addParameter (s : Storage) (target : ClassRef) (methodName : String)
    (parameter : ParameterMetadata) : Except String Storage :=
  if (mlookup s.controllers target).isSome then
    .error ("ERROR adding parameter to " ++ methodName ++ " in controller " ++
      target.name ++ ", controller already defined")
  else
    let parameters := (mlookup s.pendingParameters target).getD []
    let methodParams := (mlookup parameters methodName).getD []
    match validateParameterCombination methodName parameter methodParams with
    | some msg => .error msg
    | none =>
        let nameErr :=
          if parameter.type = .param then
            validateParamNameAgainstRoute s target methodName parameter.name
          else none
        match nameErr with
        | some msg => .error msg
        | none =>
            let methodParams := methodParams ++ [parameter]
            let parameters := mset parameters methodName methodParams
            .ok { s with pendingParameters := mset s.pendingParameters target parameters }

/-- Path normalization used by `addRoute`: the empty path becomes `/`, any
other path is prefixed with `/` unless it already starts with one. -/
def normalizePath (p : String) : String :=
  if p = "" then "/"
  else
    match p.data with
    | '/' :: _ => p
    | _ => "/" ++ p

/-- `addRoute` (src/metadata.ts lines 204-330). -/
def addRoute (s : Storage) (target : ClassRef) (metadata : RouteInput) :
    Except String Storage :=
  if (mlookup s.controllers target).isSome then
    .error ("ERROR adding " ++ metadata.methodName ++ " to controller " ++
      target.name ++ ", controller already defined")
  else if ¬ (["object", "array", "dataStream", "fileStream", "null"].contains
      (schemaTag metadata.returnType)) then
    .error ("ERROR in " ++ metadata.methodName ++
      ": return type must be object, array, dataStream, fileStream, null not " ++
      schemaTag metadata.returnType)
  else
    let parameters :=
      ((mlookup s.pendingParameters target).bind
        (fun m => mlookup m metadata.methodName)).getD []
    let pathParams := extractRoutePathParams metadata.path
    let paramDecorators := parameters.filter (fun p => p.type = .param)
    if pathParams.length > 0 ∧ paramDecorators.length = 0 then
      .error ("ERROR in " ++ metadata.methodName ++ ": route \"" ++ metadata.path ++
        "\" has parameters but no @Param decorators")
    else if pathParams.length = 0 ∧ paramDecorators.length ≠ 0 then
      .error ("ERROR in " ++ metadata.methodName ++ ": route \"" ++ metadata.path ++
        "\" has no parameters but @Param decorators are used")
    else if pathParams.length ≠ paramDecorators.length then
      .error ("ERROR in " ++ metadata.methodName ++ ": route \"" ++ metadata.path ++
        "\" has " ++ toString pathParams.length ++ " parameters but found " ++
        toString paramDecorators.length ++ " @Param decorators")
    else
      let decoratorNames := paramDecorators.filterMap (fun p => p.name)
      let missingParams := decoratorNames.filter (fun n => ¬ pathParams.contains n)
      if ¬ missingParams.isEmpty then
        .error ("ERROR in " ++ metadata.methodName ++ ": @Param decorator names [" ++
          String.intercalate ", " missingParams ++
          "] don't match any route parameters in \"" ++ metadata.path ++ "\"")
      else if decoratorNames.dedup.length ≠ decoratorNames.length then
        .error ("ERROR in " ++ metadata.methodName ++
          ": duplicate @Param decorator names found")
      else
        let routes := (mlookup s.pendingRoutes target).getD []
        let normalizedPath := normalizePath metadata.path
        let duplicateRoute := (mvalues routes).find? (fun route =>
          route.method = metadata.method ∧ normalizePath route.path = normalizedPath)
        match duplicateRoute with
        | some dup =>
            .error ("ERROR adding " ++ metadata.methodName ++ " in controller " ++
              target.name ++ ", route with method " ++ httpMethodName metadata.method ++
              " and path \"" ++ metadata.path ++ "\" already defined in " ++
              dup.methodName)
        | none =>
            let streamInfo :=
              (mlookup s.pendingStreams target).bind
                (fun m => mlookup m metadata.methodName)
            let streamErr : Option String :=
              match streamInfo with
              | none => none
              | some si =>
                  if si.streamType = .fileStream ∧
                      schemaTag metadata.returnType ≠ "fileStream" then
                    some ("ERROR in " ++ metadata.methodName ++
                      ": Routes with file stream must return FileStreamResponse")
                  else if si.streamType = .dataStream ∧
                      schemaTag metadata.returnType ≠ "dataStream" then
                    some ("ERROR in " ++ metadata.methodName ++
                      ": Routes with data stream must return DataStreamResponse")
                  else none
            match streamErr with
            | some msg => .error msg
            | none =>
                let newRoute : RouteMetadata :=
                  { path := normalizedPath
                    handler := metadata.handler
                    methodName := metadata.methodName
                    method := metadata.method
                    stream := streamInfo
                    returnType := metadata.returnType
                    parameters := []
                    middlewares := []
                    security := [] }
                let updated := mset s.pendingRoutes target (mset routes metadata.methodName newRoute)
                .ok { s with pendingRoutes := updated }

/-! ### Route ordering (`sortRoutes`, src/metadata.ts lines 465-491)

`Array.prototype.sort` with a pure comparator inducing a total preorder is,
per the ECMAScript specification, a stable sort; it is modelled by
`List.insertionSort` on the relation `compare ≤ 0`, which is stable and
yields the same ordering. -/

/-- `path.split('/').filter(Boolean)`. -/
def splitChars (sep : Char) : List Char → List Char → List String
  | acc, [] => [String.mk acc.reverse]
  | acc, c :: rest =>
      if c = sep then String.mk acc.reverse :: splitChars sep [] rest
      else splitChars sep (c :: acc) rest

/-- Path segments: split on `/`, dropping empty segments. -/
def pathSegments (p : String) : List String :=
  (splitChars '/' [] p.data).filter (fun s => ¬ s = "")

/-- Does the segment start with `:` (a placeholder segment)? -/
def segIsParam (s : String) : Bool :=
  match s.data with
  | ':' :: _ => true
  | _ => false

/-- Character-list lexicographic strict order (code-point order). -/
def charListLt : List Char → List Char → Bool
  | [], [] => false
  | [], _ :: _ => true
  | _ :: _, [] => false
  | a :: as, b :: bs => a < b || (a = b && charListLt as bs)

/-- Model of `String.prototype.localeCompare`, whose sign is all the sort
uses: code-point lexicographic comparison (this coincides with the
default-locale collation on the lowercase-ASCII segments route paths use). -/
def localeCompare (a b : String) : Int :=
  if charListLt a.data b.data then -1
  else if charListLt b.data a.data then 1
  else 0

/-- The comparator loop body of `sortRoutes` on two segment lists: at each
position a placeholder segment sorts after a literal one; two differing
literals compare by `localeCompare`; tying positions are skipped; when one
list is exhausted the remaining-length difference decides (equal to the
original length difference since both sides consumed equally many). -/
def compareSegLists : List String → List String → Int
  | a :: as, b :: bs =>
      if segIsParam a ≠ segIsParam b then (if segIsParam a then 1 else -1)
      else if !segIsParam a && !segIsParam b && ¬ a = b then localeCompare a b
      else compareSegLists as bs
  | as, bs => (as.length : Int) - (bs.length : Int)

/-- The `sortRoutes` comparator on two routes. -/
def compareRoutes (a b : RouteMetadata) : Int :=
  compareSegLists (pathSegments a.path) (pathSegments b.path)

/-- The comparator-nonpositive relation the stable sort uses. -/
def routeLe (a b : RouteMetadata) : Prop := compareRoutes a b ≤ 0

instance : DecidableRel routeLe := fun a b =>
  inferInstanceAs (Decidable (compareRoutes a b ≤ 0))

/-- `sortRoutes` (src/metadata.ts lines 465-491). -/
def sortRoutes (routes : List RouteMetadata) : List RouteMetadata :=
  routes.insertionSort routeLe

/-- The parameter ordering `(a, b) => a.parameterIndex - b.parameterIndex`
applied in `addController` (stable sort by position). -/
def paramIndexLe (a b : ParameterMetadata) : Prop :=
  a.parameterIndex ≤ b.parameterIndex

instance : DecidableRel paramIndexLe := fun a b =>
  inferInstanceAs (Decidable (a.parameterIndex ≤ b.parameterIndex))

/-- The character class of the controller base-path format regex
`/^[\\/a-zA-Z0-9-_\\.]+$/`. Inside a JS regex character class the doubled
backslash matches a literal backslash, so the admitted characters are
backslash, slash, letters, digits, hyphen, underscore and dot. -/
def controllerPathChar (c : Char) : Bool :=
  c = '\\' || c = '/' || c.isAlpha || c.isDigit || c = '-' || c = '_' || c = '.'

/-- Test of the base-path format regex (at least one character, all from the
class above). -/
def controllerPathOk (p : String) : Bool :=
  !p.data.isEmpty && p.data.all controllerPathChar

/-- The three base-path format checks at the top of `addController`
(src/metadata.ts lines 107-123), as the thrown message if any. -/
def controllerPathFormatError (name : String) (path : String) : Option String :=
  if path = "" ∨ strTrim path = "" ∨ path = "/" then
    some ("ERROR adding controller " ++ name ++
      ": controller path cannot be empty or contain only whitespace")
  else if path.data.contains ':' then
    some ("ERROR adding controller " ++ name ++ ": controller path \"" ++
      path ++ "\" cannot contain route parameters (:param). Parameters are only allowed in route paths.")
  else if ¬ controllerPathOk path then
    some ("ERROR adding controller " ++ name ++ ": controller path \"" ++
      path ++ "\" can only contain letters, numbers, hyphens, underscores, and dots (no whitespace)")
  else none

/-- `addController` (src/metadata.ts lines 101-202): validates the base
path, requires pending routes xor a default handler, merges class-level and
per-method middleware/security into each route, sorts parameters and
routes, freezes the `ControllerMetadata`, and deletes the pending state
(all five pending maps except `pendingStreams`). -/
def addController (s : Storage) (target : ClassRef) (path : String) :
    Except String Storage :=
  if (mlookup s.controllers target).isSome then
    .error ("ERROR adding controller " ++ target.name ++
      ", controller already defined")
  else if h : (controllerPathFormatError target.name path).isSome then
    .error ((controllerPathFormatError target.name path).get h)
  else
    let defaultHandler := mlookup s.pendingDefaultHandlers target
    let routes? := mlookup s.pendingRoutes target
    if defaultHandler.isNone ∧ routes?.isNone then
      .error ("ERROR adding controller " ++ target.name ++
        ", no routes or default handler defined")
    else if defaultHandler.isSome ∧ (routes?.getD []).length > 0 then
      .error ("ERROR adding controller " ++ target.name ++
        ", cannot have both default handler and route methods")
    else
      let parameters := (mlookup s.pendingParameters target).getD []
      let classLevel :=
        (mlookup ((mlookup s.pendingMiddlewares target).getD []) "__class").getD []
      let classLevelSecurity :=
        (mlookup ((mlookup s.pendingSecurity target).getD []) "__class").getD []
      let finalRoutes :=
        match routes? with
        | none => []
        | some routes =>
            sortRoutes ((mvalues routes).map (fun route =>
              let perRoute :=
                (mlookup ((mlookup s.pendingMiddlewares target).getD [])
                  route.methodName).getD []
              let perRouteSecurity :=
                (mlookup ((mlookup s.pendingSecurity target).getD [])
                  route.methodName).getD []
              { route with
                  middlewares := classLevel ++ perRoute,
                  security := classLevelSecurity ++ perRouteSecurity,
                  parameters :=
                    ((mlookup parameters route.methodName).getD []).insertionSort
                      paramIndexLe }))
      let dhMeta := defaultHandler.map (fun dh =>
        let dhMws :=
          (mlookup ((mlookup s.pendingMiddlewares target).getD []) dh.1).getD []
        DefaultHandlerMeta.mk dh.1 dh.2 (classLevel ++ dhMws))
      let newMeta : ControllerMetadata :=
        { path := path
          routes := finalRoutes
          middlewares := classLevel
          security := classLevelSecurity
          defaultHandler := dhMeta }
      .ok { controllers := mset s.controllers target newMeta
            pendingRoutes := mdelete s.pendingRoutes target
            pendingParameters := mdelete s.pendingParameters target
            pendingStreams := s.pendingStreams
            pendingMiddlewares := mdelete s.pendingMiddlewares target
            pendingDefaultHandlers := mdelete s.pendingDefaultHandlers target
            pendingSecurity := mdelete s.pendingSecurity target }

/-! ### Middleware pipeline runner (`ExpressAdapter.runPipeline`,
src/adapters/express.ts lines 192-202)

```
let i = -1;
const dispatch = async (k) => {
  if (k <= i) throw new Error('next() called twice');
  i = k;
  if (k < mws.length) await mws[k](ctx, () => dispatch(k + 1));
};
await dispatch(0);
```

A middleware stage is deep-embedded by how it uses its `proceed`
capability; `proceed` is the state transformer `dispatch (k+1)` acting on
the shared counter `i` (the only state the guard reads). Execution is
single-threaded and sequential, so the run is a function from the incoming
counter to the outgoing counter or a thrown error. The recursion is
structural on a fuel argument; fuel `> mws.length - k` always suffices
because `k` increases at every nested dispatch. -/

/-- What a middleware stage does with its `proceed` capability. -/
inductive MwBehavior : Type where
  | skip
  | once
  | twice
  | throwErr (msg : String)
  | onceThenThrow (msg : String)
deriving DecidableEq, Repr

def nextCalledTwiceMsg : String := "next() called twice"

/-- Run one stage, given the `proceed` state transformer. -/
def runStage : MwBehavior → (Int → Except String Int) → Int → Except String Int
  | .skip, _, i => .ok i
  | .once, proceed, i => proceed i
  | .twice, proceed, i => do
      let i1 ← proceed i
      proceed i1
  | .throwErr m, _, _ => .error m
  | .onceThenThrow m, proceed, i => do
      let _ ← proceed i
      .error m

/-- `dispatch k` acting on the counter `i`. -/
def dispatchFuel (mws : List MwBehavior) : Nat → Nat → Int → Except String Int
  | 0, _, _ => .error "out of fuel"
  | fuel + 1, k, i =>
      if (k : Int) ≤ i then .error nextCalledTwiceMsg
      else
        if h : k < mws.length then
          runStage (mws.get ⟨k, h⟩) (dispatchFuel mws fuel (k + 1)) (k : Int)
        else .ok (k : Int)

/-- `runPipeline(mws, ctx)`: start at stage 0 with counter `-1`. -/
def runPipeline (mws : List MwBehavior) : Except String Int :=
  dispatchFuel mws (mws.length + 1) 0 (-1)

/-! ### Error taxonomy and dispatch-boundary error mapping
(src/errors/index.ts, `ExpressAdapter.handleError` src/adapters/express.ts
lines 226-242) -/

/-- An error reaching the dispatch boundary: a `FrameworkError` carries
`name` and `status`; anything else is a generic `Error`. -/
inductive JsError : Type where
  | framework (name : String) (status : Nat) (message : String)
  | generic (message : String)
deriving DecidableEq, Repr

def InternalServerError (message : String) : JsError :=
  .framework "Internal Server Error" 500 message

def BadRequestError (message : String) : JsError :=
  .framework "Bad Request" 400 message

def NotFoundError (message : String) : JsError :=
  .framework "Not Found" 404 message

def UnauthorizedError (message : String) : JsError :=
  .framework "Unauthorized" 401 message

def ForbiddenError (message : String) : JsError :=
  .framework "Forbidden" 403 message

def StatusCodeErrorError (message : String) (status : Nat) : JsError :=
  .framework "StatusCodeError" status message

def MissingInjectionError (key : String) : JsError :=
  .framework "MissingInjection" 500
    ("Context value \"" ++ key ++ "\" was not injected")

/-- The slice of the HTTP response that `handleError` touches. -/
structure ResponseState : Type where
  headersSent : Bool
  status : Option Nat
  jsonBody : Option (String × String)
deriving DecidableEq, Repr

/-- A response on which nothing has been written yet. -/
def freshResponse : ResponseState := ⟨false, none, none⟩

/-- `handleError(res, err)`: returns the resulting response state and the
list of logged messages. A `FrameworkError` on an unstarted response gets
its status and an `{error, message}` JSON body; a started response is left
untouched; a non-`FrameworkError` is logged first and then mapped to a
generic 500 if the response has not started. -/
def handleError (res : ResponseState) (err : JsError) :
    ResponseState × List String :=
  match err with
  | .framework name status message =>
      if res.headersSent then (res, [])
      else
        (⟨true, some status, some (name, "[" ++ name ++ "]: " ++ message)⟩, [])
  | .generic message =>
      let logs := ["Internal Server Error: " ++ message]
      if res.headersSent then (res, logs)
      else
        (⟨true, some 500, some ("InternalServerError", "Something bad happened")⟩,
         logs)

/-! ## Shared lemmas about the map model -/

theorem mlookup_mset_self [DecidableEq κ] (m : List (κ × β)) (k : κ) (v : β) :
    mlookup (mset m k v) k = some v := by
  induction m with
  | nil => simp [mset, mlookup]
  | cons p rest ih =>
      obtain ⟨k1, v1⟩ := p
      by_cases h : k1 = k
      · simp [mset, h, mlookup]
      · simp [mset, h, mlookup, ih]

theorem mlookup_mdelete_self [DecidableEq κ] (m : List (κ × β)) (k : κ) :
    mlookup (mdelete m k) k = none := by
  induction m with
  | nil => simp [mdelete, mlookup]
  | cons p rest ih =>
      obtain ⟨k1, v1⟩ := p
      by_cases h : k1 = k
      · simpa [mdelete, List.filter_cons, h] using ih
      · simpa [mdelete, List.filter_cons, h, mlookup] using ih

/-! ## C3 -/

/-- C3, counterexample: the claim asserts that `{n:"42"}` validated with
parameter kind `body` against a schema whose property `n` is typed `string`
fails; in fact no coercion happens for `body`-kind values, the string value
`"42"` satisfies the `string` schema, and validation succeeds. -/
theorem C3_body_string_counterexample :
    validateAndTransform (vObj [("n", vStr "42")])
      (SchemaType.object (some [("n", SchemaType.string)]) (some ["n"]))
      ParamKind.body "" = .ok (vObj [("n", vStr "42")]) := rfl

/-- C3 (amended): for the schema `{n: number, required: [n]}` and input
`{n:"42"}`, `query`-kind validation returns `{n:42}` with `42` a number;
the same input against the property typed `string` fails for `query`-kind
(the opportunistic coercion turns `"42"` into a number before the string
check) while it succeeds unchanged for `body`-kind. -/
theorem C3_validation_roundtrip :
    validateAndTransform (vObj [("n", vStr "42")])
        (SchemaType.object (some [("n", SchemaType.number)]) (some ["n"]))
        ParamKind.query "" = .ok (vObj [("n", vNum 42)]) ∧
    validateAndTransform (vObj [("n", vStr "42")])
        (SchemaType.object (some [("n", SchemaType.string)]) (some ["n"]))
        ParamKind.query "" =
      .error (.badRequest "Expected string at path \"n\", got number") ∧
    validateAndTransform (vObj [("n", vStr "42")])
        (SchemaType.object (some [("n", SchemaType.string)]) (some ["n"]))
        ParamKind.body "" = .ok (vObj [("n", vStr "42")]) :=
  ⟨rfl, rfl, rfl⟩

/-! ## C8 -/

/-- C8: a `FrameworkError` with status `s` on an unstarted response yields
status `s` and the JSON body `{error: name, message: "[name]: message"}`;
a started response is never written to; a non-`FrameworkError` is always
logged and, when the response has not started, yields a generic 500 body;
in particular `BadRequestError("Invalid user ID")` yields 400 with body
`{error:"Bad Request", message:"[Bad Request]: Invalid user ID"}`. -/
theorem C8_error_mapping :
    (∀ res name status message, res.headersSent = false →
      handleError res (JsError.framework name status message) =
        (⟨true, some status, some (name, "[" ++ name ++ "]: " ++ message)⟩, [])) ∧
    (∀ res err, res.headersSent = true → (handleError res err).1 = res) ∧
    (∀ res message,
      (handleError res (JsError.generic message)).2 =
        ["Internal Server Error: " ++ message] ∧
      (res.headersSent = false →
        (handleError res (JsError.generic message)).1 =
          ⟨true, some 500, some ("InternalServerError", "Something bad happened")⟩)) ∧
    handleError freshResponse (BadRequestError "Invalid user ID") =
      (⟨true, some 400, some ("Bad Request", "[Bad Request]: Invalid user ID")⟩, []) := by
  refine ⟨?_, ?_, ?_, rfl⟩
  · intro res name status message h
    simp [handleError, h]
  · intro res err h
    cases err <;> simp [handleError, h]
  · intro res message
    constructor
    · by_cases h : res.headersSent <;> simp [handleError, h]
    · intro h
      simp [handleError, h]

/-- C8, witness: the theorem applied to a fresh response and the error the
handler of `GET /users/0` throws. -/
theorem C8_error_mapping_witness :
    freshResponse.headersSent = false ∧
    handleError freshResponse (JsError.framework "Bad Request" 400 "Invalid user ID") =
      (⟨true, some 400, some ("Bad Request", "[Bad Request]: Invalid user ID")⟩, []) :=
  ⟨rfl, C8_error_mapping.1 freshResponse "Bad Request" 400 "Invalid user ID" rfl⟩

/-! ## C9 -/

/-- C9, counterexample: the claim says any base path containing a character
outside `[A-Za-z0-9/_.-]` is rejected, but the doubled backslash in the
source regex `/^[\\/a-zA-Z0-9-_\\.]+$/` makes the character class admit a
literal backslash: the one-character path `"\"` passes the format check
(and a controller with that base path registers successfully), although
backslash is outside the claimed charset. -/
theorem C9_basepath_counterexample :
    controllerPathFormatError "BackslashController" "\\" = none ∧
    '\\' ∈ ("\\" : String).data ∧
    ('\\'.isAlpha || '\\'.isDigit || '\\' = '/' || '\\' = '_' ||
      '\\' = '.' || '\\' = '-') = false ∧
    (addController
      (match addDefaultHandler emptyStorage ⟨9, "BackslashController"⟩ "handle" 7 with
       | .ok s => s
       | .error _ => emptyStorage)
      ⟨9, "BackslashController"⟩ "\\").isOk = true := by
  refine ⟨rfl, ?_, by decide, rfl⟩
  decide

/-- C9 (amended): the base-path format check rejects exactly the paths that
are empty or whitespace-only, the bare `/`, those containing `:`, and those
containing a character outside the class `[\/A-Za-z0-9_.-]` — i.e. the
claimed charset extended with the backslash admitted by the doubled escape
in the source regex; and when the format check fails on a not-yet-finalized
class, `addController` throws. -/
theorem C9_basepath_format :
    (∀ nm path, controllerPathFormatError nm path = none ↔
      (strTrim path ≠ "" ∧ path ≠ "/" ∧ (':' ∉ path.data) ∧
        ∀ c ∈ path.data, controllerPathChar c = true)) ∧
    (∀ (s : Storage) (t : ClassRef) (p : String),
      mlookup s.controllers t = none →
      controllerPathFormatError t.name p ≠ none →
      ∃ msg, addController s t p = .error msg) := by
  constructor
  · intro nm path
    constructor
    · intro h
      unfold controllerPathFormatError at h
      split_ifs at h with h1 h2 h3
      push_neg at h1
      refine ⟨h1.2.1, h1.2.2, ?_, ?_⟩
      · intro hmem
        exact h2 (List.contains_iff_exists_mem_beq.mpr ⟨':', hmem, by simp⟩)
      · intro c hc
        unfold controllerPathOk at h3
        exact List.all_eq_true.mp ((Bool.and_eq_true _ _).mp h3).2 c hc
    · rintro ⟨ha, hb, hc, hd⟩
      have h1 : ¬ (path = "" ∨ strTrim path = "" ∨ path = "/") := by
        rintro (h | h | h)
        · subst h; exact ha rfl
        · exact ha h
        · exact hb h
      have h2 : ¬ path.data.contains ':' = true := by
        intro hcon
        obtain ⟨a, hmem, hbeq⟩ := List.contains_iff_exists_mem_beq.mp hcon
        have hax : ':' = a := eq_of_beq hbeq
        exact hc (hax ▸ hmem)
      have hok : controllerPathOk path = true := by
        unfold controllerPathOk
        refine (Bool.and_eq_true _ _).mpr ⟨?_, List.all_eq_true.mpr hd⟩
        have hne : path.data ≠ [] := by
          intro hnil
          apply ha
          obtain ⟨cs⟩ := path
          simp only [String.data] at hnil
          subst hnil
          rfl
        simp [List.isEmpty_iff, hne]
      unfold controllerPathFormatError
      rw [if_neg h1, if_neg h2, if_neg (not_not_intro hok)]
  · intro s t p hfin hfmt
    rcases ho : controllerPathFormatError t.name p with _ | msg
    · exact absurd ho hfmt
    · refine ⟨msg, ?_⟩
      unfold addController
      rw [hfin, ho]
      simp

/-- C9, witness: the format-check characterization evaluated at the bare
`/`, and the `addController` rejection derived from it on the empty
registry. -/
theorem C9_basepath_format_witness :
    (controllerPathFormatError "Demo" "/" = none ↔
      (strTrim "/" ≠ "" ∧ "/" ≠ "/" ∧ (':' ∉ ("/" : String).data) ∧
        ∀ c ∈ ("/" : String).data, controllerPathChar c = true)) ∧
    mlookup emptyStorage.controllers ⟨0, "Demo"⟩ = none ∧
    controllerPathFormatError "Demo" "/" ≠ none ∧
    ∃ msg, addController emptyStorage ⟨0, "Demo"⟩ "/" = .error msg :=
  ⟨C9_basepath_format.1 "Demo" "/", rfl, by simp [controllerPathFormatError, strTrim],
   C9_basepath_format.2 emptyStorage ⟨0, "Demo"⟩ "/" rfl
     (by simp [controllerPathFormatError, strTrim])⟩

/-! ## C10 -/

/-- Unfolding equation for the scanner step on a nonempty input. -/
theorem scanPathTokens_succ_cons (first cont : Char → Bool) (n : Nat)
    (a : Char) (rest : List Char) :
    scanPathTokens first cont (n + 1) (a :: rest) =
      if a = ':' then
        (match rest with
         | [] => []
         | c :: cs =>
             if first c then
               String.mk (c :: cs.takeWhile cont) ::
                 scanPathTokens first cont n (cs.dropWhile cont)
             else scanPathTokens first cont n (c :: cs))
      else scanPathTokens first cont n rest := rfl

/-- Every token produced by the letters-only placeholder scanner consists of
letters only (so a placeholder name containing a digit can never be
matched by `validateParamNameAgainstRoute`). -/
theorem scanLetters_tokens_alpha :
    ∀ fuel cs tok, tok ∈ scanPathTokens Char.isAlpha Char.isAlpha fuel cs →
      tok.data ≠ [] ∧ ∀ c ∈ tok.data, c.isAlpha = true := by
  intro fuel
  induction fuel with
  | zero => intro cs tok h; simp [scanPathTokens] at h
  | succ n ih =>
      intro cs tok h
      match cs with
      | [] => simp [scanPathTokens] at h
      | a :: rest =>
          rw [scanPathTokens_succ_cons] at h
          by_cases ha : a = ':'
          · rw [if_pos ha] at h
            match rest with
            | [] => simp at h
            | c :: cs2 =>
                have h2 : tok ∈
                    (if Char.isAlpha c then
                      String.mk (c :: cs2.takeWhile Char.isAlpha) ::
                        scanPathTokens Char.isAlpha Char.isAlpha n
                          (cs2.dropWhile Char.isAlpha)
                    else scanPathTokens Char.isAlpha Char.isAlpha n (c :: cs2)) := h
                by_cases hf : Char.isAlpha c
                · rw [if_pos hf] at h2
                  rcases List.mem_cons.mp h2 with h1 | h3
                  · subst h1
                    refine ⟨by simp, ?_⟩
                    intro x hx
                    simp only [String.data] at hx
                    rcases List.mem_cons.mp hx with hx1 | hx2
                    · subst hx1; exact hf
                    · exact List.mem_takeWhile_imp hx2
                  · exact ih _ _ h3
                · rw [if_neg hf] at h2
                  exact ih _ _ h2
          · rw [if_neg ha] at h
            exact ih _ _ h

/-- A registry state in which the route `GET /items/:id2` for method
`getItem` is pending; built through the API (an unnamed `@Param` decorator
first, then the route, which accepts it because unnamed decorators are
counted but not name-checked). -/
def c10Storage : Storage :=
  match addParameter emptyStorage ⟨10, "ItemsController"⟩ "getItem"
      ⟨none, true, SchemaType.number, 0, ParamKind.param, none⟩ with
  | .ok s1 =>
      (match addRoute s1 ⟨10, "ItemsController"⟩
          ⟨"/items/:id2", 0, "getItem", HttpMethod.GET,
            SchemaType.object (some []) none⟩ with
       | .ok s2 => s2
       | .error _ => emptyStorage)
  | .error _ => emptyStorage

/-- C10: `addRoute` extracts placeholder names with the wide pattern
(`id2` from `/items/:id2`), while the best-effort cross-check in
`validateParamNameAgainstRoute` uses a letters-only pattern (`id` from the
same path, and in general only all-letter tokens); consequently recording a
path-kind parameter named exactly `id2` against the pending route
`/items/:id2` throws a name-mismatch error. -/
theorem C10_param_placeholder_regexes :
    extractRoutePathParams "/items/:id2" = ["id2"] ∧
    extractLetterPathParams "/items/:id2" = ["id"] ∧
    (∀ p tok, tok ∈ extractLetterPathParams p → ∀ c ∈ tok.data, c.isAlpha = true) ∧
    addParameter c10Storage ⟨10, "ItemsController"⟩ "getItem"
        ⟨some "id2", true, SchemaType.number, 1, ParamKind.param, none⟩ =
      .error "ERROR in getItem: parameter name \"id2\" doesn't match any route parameter in path \"/items/:id2\"" := by
  refine ⟨rfl, rfl, ?_, rfl⟩
  intro p tok h
  exact (scanLetters_tokens_alpha p.length p.data tok h).2

/-- C10, witness: the all-letters conjunct applied to the concrete path. -/
theorem C10_param_placeholder_witness :
    ("id" ∈ extractLetterPathParams "/items/:id2") ∧
    ∀ c ∈ ("id" : String).data, c.isAlpha = true :=
  ⟨by decide,
   C10_param_placeholder_regexes.2.2.1 "/items/:id2" "id" (by decide)⟩

/-! ## C2 -/

/-- Unfolding equation for the comparator on two nonempty segment lists. -/
theorem compareSegLists_cons (s t : String) (as bs : List String) :
    compareSegLists (s :: as) (t :: bs) =
      if segIsParam s ≠ segIsParam t then (if segIsParam s then 1 else -1)
      else if !segIsParam s && !segIsParam t && ¬ s = t then localeCompare s t
      else compareSegLists as bs := rfl

/-- The two routes of the spec's ordering property P3, as they stand in the
pending-routes map right before finalization. -/
def c2UsersIdRoute : RouteMetadata :=
  ⟨"/users/:id", 0, "getUser", .GET, none, SchemaType.object (some []) none, [], [], []⟩

def c2UsersSearchRoute : RouteMetadata :=
  ⟨"/users/search", 1, "searchUsers", .GET, none, SchemaType.object (some []) none, [], [], []⟩

/-- A registry holding the pending routes `GET /users/:id` (with its path
parameter) and `GET /users/search`, built through the API. -/
def c2Storage : Storage :=
  match addParameter emptyStorage ⟨2, "UsersController"⟩ "getUser"
      ⟨some "id", true, SchemaType.number, 0, ParamKind.param, none⟩ with
  | .ok s1 =>
      (match addRoute s1 ⟨2, "UsersController"⟩
          ⟨"/users/:id", 0, "getUser", HttpMethod.GET,
            SchemaType.object (some []) none⟩ with
       | .ok s2 =>
          (match addRoute s2 ⟨2, "UsersController"⟩
              ⟨"/users/search", 1, "searchUsers", HttpMethod.GET,
                SchemaType.object (some []) none⟩ with
           | .ok s3 => s3
           | .error _ => emptyStorage)
       | .error _ => emptyStorage)
  | .error _ => emptyStorage

/-- C2: the route comparator compares segment-by-segment (literal before
placeholder, differing literals by the locale comparison, ties skipped,
exhaustion decided by length), ties preserve original order (stability of
the sort), and concretely `/users/search` sorts before `/users/:id` — both
on `sortRoutes` directly and through controller finalization. -/
theorem C2_route_ordering :
    (∀ (s t : String) (as bs : List String),
      segIsParam s = false → segIsParam t = true →
      compareSegLists (s :: as) (t :: bs) = -1) ∧
    (∀ (s t : String) (as bs : List String),
      segIsParam s = true → segIsParam t = false →
      compareSegLists (s :: as) (t :: bs) = 1) ∧
    (∀ (s t : String) (as bs : List String),
      segIsParam s = false → segIsParam t = false → s ≠ t →
      compareSegLists (s :: as) (t :: bs) = localeCompare s t) ∧
    (∀ (s t : String) (as bs : List String),
      segIsParam s = segIsParam t → (segIsParam s = true ∨ s = t) →
      compareSegLists (s :: as) (t :: bs) = compareSegLists as bs) ∧
    (∀ as bs : List String, as = [] ∨ bs = [] →
      compareSegLists as bs = (as.length : Int) - (bs.length : Int)) ∧
    (∀ (a b : RouteMetadata) (l : List RouteMetadata),
      compareRoutes a b = 0 → [a, b].Sublist l →
      [a, b].Sublist (sortRoutes l)) ∧
    sortRoutes [c2UsersIdRoute, c2UsersSearchRoute] =
      [c2UsersSearchRoute, c2UsersIdRoute] ∧
    sortRoutes [c2UsersSearchRoute, c2UsersIdRoute] =
      [c2UsersSearchRoute, c2UsersIdRoute] ∧
    (match addController c2Storage ⟨2, "UsersController"⟩ "/users" with
     | .ok s => (mlookup s.controllers ⟨2, "UsersController"⟩).map
         (fun m => m.routes.map (fun r => r.path))
     | .error _ => none) = some ["/users/search", "/users/:id"] := by
  refine ⟨?_, ?_, ?_, ?_, ?_, ?_, rfl, rfl, rfl⟩
  · intro s t as bs hs ht
    rw [compareSegLists_cons, hs, ht]
    simp
  · intro s t as bs hs ht
    rw [compareSegLists_cons, hs, ht]
    simp
  · intro s t as bs hs ht hne
    rw [compareSegLists_cons, hs, ht]
    simp [hne]
  · intro s t as bs heq hcase
    rw [compareSegLists_cons, ← heq]
    rcases hcase with hp | hst
    · simp [hp]
    · simp [heq, hst]
  · intro as bs h
    rcases h with rfl | rfl
    · cases bs <;> rfl
    · cases as <;> rfl
  · intro a b l hcmp hsub
    have hle : routeLe a b := by
      unfold routeLe
      rw [hcmp]
    exact List.pair_sublist_insertionSort hle hsub

/-- C2, witness: the comparator conclusions instantiated at the segments of
the two concrete routes, and stability at a tying pair. -/
theorem C2_route_ordering_witness :
    segIsParam "search" = false ∧ segIsParam ":id" = true ∧
    compareSegLists ["search"] [":id"] = -1 ∧
    compareRoutes c2UsersIdRoute c2UsersIdRoute = 0 ∧
    [c2UsersIdRoute, c2UsersIdRoute].Sublist
      (sortRoutes [c2UsersIdRoute, c2UsersIdRoute]) :=
  ⟨rfl, rfl, C2_route_ordering.1 "search" ":id" [] [] rfl rfl,
   rfl,
   C2_route_ordering.2.2.2.2.2.1 c2UsersIdRoute c2UsersIdRoute
     [c2UsersIdRoute, c2UsersIdRoute] rfl (List.Sublist.refl _)⟩

/-! ## C5 -/

/-- A registry in which the class `⟨5, FinalizedController⟩` has been
finalized with one route, built through the API. -/
def c5Storage : Storage :=
  match addRoute emptyStorage ⟨5, "FinalizedController"⟩
      ⟨"/a", 0, "list", HttpMethod.GET, SchemaType.object (some []) none⟩ with
  | .ok s1 =>
      (match addController s1 ⟨5, "FinalizedController"⟩ "/base" with
       | .ok s2 => s2
       | .error _ => emptyStorage)
  | .error _ => emptyStorage

def c5After : Storage :=
  match addMiddleware c5Storage ⟨5, "FinalizedController"⟩ none [5] with
  | .ok s => s
  | .error _ => c5Storage

/-- C5, counterexample: the claim says every mutation call for a finalized
class fails, but a class-level `addMiddleware` on the finalized class
succeeds and modifies the live declaration (the middleware list of the
controller changes from `[]` to `[5]`). -/
theorem C5_counterexample :
    addMiddleware c5Storage ⟨5, "FinalizedController"⟩ none [5] = .ok c5After ∧
    (mlookup c5Storage.controllers ⟨5, "FinalizedController"⟩).map
      (fun m => m.middlewares) = some [] ∧
    (mlookup c5After.controllers ⟨5, "FinalizedController"⟩).map
      (fun m => m.middlewares) = some [5] :=
  ⟨rfl, rfl, rfl⟩

/-- C5 (amended): finalizing the same class twice throws, and `addRoute`,
`addParameter` and `addDefaultHandler` throw for a finalized class; but
class-level `addMiddleware` and `addSecurity` on a finalized class succeed
(grafting onto the live declaration), and `addStreamInfo` performs no
finalization check at all — it always records into the pending stream map. -/
theorem C5_finalization_mutations :
    (∀ (s : Storage) (t : ClassRef) (p : String),
      mcontains s.controllers t = true → ∃ msg, addController s t p = .error msg) ∧
    (∀ (s : Storage) (t : ClassRef) (md : RouteInput),
      mcontains s.controllers t = true → ∃ msg, addRoute s t md = .error msg) ∧
    (∀ (s : Storage) (t : ClassRef) (mn : String) (pm : ParameterMetadata),
      mcontains s.controllers t = true → ∃ msg, addParameter s t mn pm = .error msg) ∧
    (∀ (s : Storage) (t : ClassRef) (mn : String) (hd : HandlerRef),
      mcontains s.controllers t = true → ∃ msg, addDefaultHandler s t mn hd = .error msg) ∧
    (∀ (s : Storage) (t : ClassRef) (mws : List MwRef),
      mcontains s.controllers t = true → ∃ s2, addMiddleware s t none mws = .ok s2) ∧
    (∀ (s : Storage) (t : ClassRef) (schemes : List String),
      mcontains s.controllers t = true → ∃ s2, addSecurity s t none schemes = .ok s2) ∧
    (∀ (s : Storage) (t : ClassRef) (mn : String) (ty : StreamType) (o : StreamOptions),
      mlookup ((mlookup (addStreamInfo s t mn ty o).pendingStreams t).getD []) mn =
        some ⟨o, ty⟩) := by
  refine ⟨?_, ?_, ?_, ?_, ?_, ?_, ?_⟩
  · intro s t p h
    unfold mcontains at h
    exact ⟨_, by unfold addController; rw [if_pos h]⟩
  · intro s t md h
    unfold mcontains at h
    exact ⟨_, by unfold addRoute; rw [if_pos h]⟩
  · intro s t mn pm h
    unfold mcontains at h
    exact ⟨_, by unfold addParameter; rw [if_pos h]⟩
  · intro s t mn hd h
    unfold mcontains at h
    exact ⟨_, by unfold addDefaultHandler; rw [if_pos h]⟩
  · intro s t mws h
    unfold mcontains at h
    obtain ⟨meta, hm⟩ := Option.isSome_iff_exists.mp h
    exact ⟨_, by unfold addMiddleware; rw [hm]⟩
  · intro s t schemes h
    unfold mcontains at h
    obtain ⟨meta, hm⟩ := Option.isSome_iff_exists.mp h
    exact ⟨_, by unfold addSecurity; rw [hm]⟩
  · intro s t mn ty o
    unfold addStreamInfo
    simp only
    rw [mlookup_mset_self]
    simp
    rw [mlookup_mset_self]

/-- C5, witness: the theorem applied to the concrete finalized registry. -/
theorem C5_finalization_mutations_witness :
    mcontains c5Storage.controllers ⟨5, "FinalizedController"⟩ = true ∧
    (∃ msg, addController c5Storage ⟨5, "FinalizedController"⟩ "/again" = .error msg) ∧
    (∃ s2, addMiddleware c5Storage ⟨5, "FinalizedController"⟩ none [9] = .ok s2) :=
  ⟨rfl,
   C5_finalization_mutations.1 c5Storage ⟨5, "FinalizedController"⟩ "/again" rfl,
   C5_finalization_mutations.2.2.2.2.1 c5Storage ⟨5, "FinalizedController"⟩ [9] rfl⟩

/-! ## C6 -/

/-- C6 (amended): after a successful `addController`, the pending routes,
parameters, middlewares, default-handler and security maps no longer hold
an entry for the class — but the pending stream-info map is left entirely
untouched (the source deletes five pending maps and omits
`pendingStreams`). -/
theorem C6_pending_state_discarded :
    ∀ (s : Storage) (t : ClassRef) (p : String) (s2 : Storage),
      addController s t p = .ok s2 →
      mlookup s2.pendingRoutes t = none ∧
      mlookup s2.pendingParameters t = none ∧
      mlookup s2.pendingMiddlewares t = none ∧
      mlookup s2.pendingDefaultHandlers t = none ∧
      mlookup s2.pendingSecurity t = none ∧
      s2.pendingStreams = s.pendingStreams := by
  intro s t p s2 h
  simp only [addController] at h
  split_ifs at h
  injection h with h
  subst h
  refine ⟨?_, ?_, ?_, ?_, ?_, rfl⟩ <;> exact mlookup_mdelete_self _ _

/-- A registry with a pending data-stream route (stream info recorded, then
the route), built through the API. -/
def c6Storage : Storage :=
  match addRoute (addStreamInfo emptyStorage ⟨6, "StreamController"⟩ "feed"
      StreamType.dataStream 0) ⟨6, "StreamController"⟩
      ⟨"/feed", 2, "feed", HttpMethod.GET, SchemaType.dataStream⟩ with
  | .ok s => s
  | .error _ => emptyStorage

def c6After : Storage :=
  match addController c6Storage ⟨6, "StreamController"⟩ "/api" with
  | .ok s => s
  | .error _ => emptyStorage

/-- C6, counterexample: finalization succeeds but the pending stream-info
map still contains the class's entry afterwards, contradicting the claim
that all pending maps (including stream info) are cleared. -/
theorem C6_pendingStreams_counterexample :
    addController c6Storage ⟨6, "StreamController"⟩ "/api" = .ok c6After ∧
    mlookup c6After.pendingStreams ⟨6, "StreamController"⟩ =
      some [("feed", ⟨0, StreamType.dataStream⟩)] :=
  ⟨rfl, rfl⟩

/-- C6, witness: the theorem applied to the concrete finalization above. -/
theorem C6_pending_state_witness :
    mlookup c6After.pendingRoutes ⟨6, "StreamController"⟩ = none ∧
    mlookup c6After.pendingParameters ⟨6, "StreamController"⟩ = none ∧
    mlookup c6After.pendingMiddlewares ⟨6, "StreamController"⟩ = none ∧
    mlookup c6After.pendingDefaultHandlers ⟨6, "StreamController"⟩ = none ∧
    mlookup c6After.pendingSecurity ⟨6, "StreamController"⟩ = none ∧
    c6After.pendingStreams = c6Storage.pendingStreams :=
  C6_pending_state_discarded c6Storage ⟨6, "StreamController"⟩ "/api" c6After rfl

/-! ## C1 -/

/-- A registry with one pending unnamed `@Param` decorator for method
`show` (reachable through the API: `validateParamNameAgainstRoute` skips
every check while the route is not yet pending). -/
def c1Storage : Storage :=
  match addParameter emptyStorage ⟨1, "UsersController"⟩ "show"
      ⟨none, true, SchemaType.number, 0, ParamKind.param, none⟩ with
  | .ok s => s
  | .error _ => emptyStorage

/-- C1, counterexample: `addRoute` succeeds for `/users/:id` although the
set of placeholder names is `{id}` while the set of names of the recorded
path-kind parameters is empty — the single recorded `param`-kind decorator
has no name, and unnamed decorators are counted but filtered out before
the name comparison. -/
theorem C1_counterexample :
    (addRoute c1Storage ⟨1, "UsersController"⟩
      ⟨"/users/:id", 1, "show", HttpMethod.GET,
        SchemaType.object (some []) none⟩).isOk = true ∧
    extractRoutePathParams "/users/:id" = ["id"] ∧
    (((((mlookup c1Storage.pendingParameters ⟨1, "UsersController"⟩).bind
        (fun m => mlookup m "show")).getD []).filter
        (fun p => p.type = ParamKind.param)).filterMap (fun p => p.name)) = [] :=
  ⟨rfl, rfl, rfl⟩

/-- If every parameter in the list carries a name, `filterMap name` keeps
the length. -/
theorem filterMap_name_length :
    ∀ (l : List ParameterMetadata), (∀ p ∈ l, p.name.isSome) →
      (l.filterMap (fun p => p.name)).length = l.length := by
  intro l h
  induction l with
  | nil => rfl
  | cons p rest ih =>
      have hp := h p (List.mem_cons_self p rest)
      obtain ⟨nm, hnm⟩ := Option.isSome_iff_exists.mp hp
      rw [List.filterMap_cons, hnm]
      simp only [List.length_cons]
      rw [ih (fun q hq => h q (List.mem_cons_of_mem p hq))]

/-- C1 (amended): when `addRoute` succeeds, the placeholder count equals the
recorded path-kind decorator count, every decorator name matches some
placeholder, and decorator names are free of duplicates; when additionally
every recorded path-kind parameter carries a name (the decorator layer
always supplies one, but `addParameter` also accepts unnamed ones, which
are counted yet never name-checked), the multiset of placeholders is
duplicate-free and its set equals the set of decorator names — the claimed
bijection. -/
theorem C1_path_param_bijection :
    ∀ (s : Storage) (t : ClassRef) (md : RouteInput),
      (addRoute s t md).isOk = true →
      (let params := ((mlookup s.pendingParameters t).bind
          (fun m => mlookup m md.methodName)).getD []
       let paramDecorators := params.filter (fun p => p.type = ParamKind.param)
       let pathParams := extractRoutePathParams md.path
       let decoratorNames := paramDecorators.filterMap (fun p => p.name)
       (pathParams = [] ↔ paramDecorators = []) ∧
       pathParams.length = paramDecorators.length ∧
       (∀ n ∈ decoratorNames, n ∈ pathParams) ∧
       decoratorNames.Nodup ∧
       ((∀ p ∈ paramDecorators, p.name.isSome) →
         pathParams.Nodup ∧ ∀ x, x ∈ pathParams ↔ x ∈ decoratorNames)) := by
  intro s t md h
  simp only [addRoute] at h
  split_ifs at h with hfin hret hg1 hg2 hg3 hg4 hg5
  any_goals simp only [Except.isOk, Except.toBool, Bool.false_eq_true] at h
  · dsimp only
    set params := ((mlookup s.pendingParameters t).bind
      (fun m => mlookup m md.methodName)).getD [] with hparams
    set dec := params.filter (fun p => p.type = ParamKind.param) with hdec
    set pp := extractRoutePathParams md.path with hpp
    set names := dec.filterMap (fun p => p.name) with hnames
    have hlen : pp.length = dec.length := not_ne_iff.mp hg3
    have hsubset : ∀ n ∈ names, n ∈ pp := by
      intro n hn
      have h4n : names.filter (fun n => ¬ pp.contains n) = [] := by
        simpa [List.isEmpty_iff] using hg4
      have h5 := List.filter_eq_nil_iff.mp h4n n hn
      have hcont : pp.contains n = true := by
        by_contra hc
        exact h5 (by simpa using hc)
      obtain ⟨a, hmem, hbeq⟩ := List.contains_iff_exists_mem_beq.mp hcont
      have hna : n = a := eq_of_beq hbeq
      rw [hna]
      exact hmem
    have hnodup : names.Nodup := by
      have heq : names.dedup = names :=
        List.Sublist.eq_of_length (List.dedup_sublist _) (not_ne_iff.mp hg5)
      exact List.dedup_eq_self.mp heq
    refine ⟨?_, hlen, hsubset, hnodup, ?_⟩
    · constructor
      · intro hppnil
        have : dec.length = 0 := by
          rw [← hlen, hppnil]
          rfl
        exact List.length_eq_zero.mp this
      · intro hdecnil
        have : pp.length = 0 := by
          rw [hlen, hdecnil]
          rfl
        exact List.length_eq_zero.mp this
    · intro hnamed
      have hnl : names.length = dec.length := filterMap_name_length dec hnamed
      have hperm : names.Perm pp := by
        have hsp : names.Subperm pp := List.subperm_of_subset hnodup hsubset
        exact hsp.perm_of_length_le (by rw [hnl, ← hlen])
      refine ⟨(hperm.nodup_iff).mp hnodup, ?_⟩
      intro x
      exact ⟨fun hx => (hperm.mem_iff).mpr hx, fun hx => (hperm.mem_iff).mp hx⟩

/-- C1, witness: the amended theorem applied to a registry holding one
named path parameter `id` and the route `/users/:id`. -/
theorem C1_path_param_witness :
    (addRoute
      (match addParameter emptyStorage ⟨11, "W"⟩ "show"
          ⟨some "id", true, SchemaType.number, 0, ParamKind.param, none⟩ with
       | .ok s => s
       | .error _ => emptyStorage)
      ⟨11, "W"⟩
      ⟨"/users/:id", 1, "show", HttpMethod.GET,
        SchemaType.object (some []) none⟩).isOk = true ∧
    extractRoutePathParams "/users/:id" = ["id"] ∧
    (extractRoutePathParams "/users/:id").Nodup := by
  refine ⟨rfl, rfl, ?_⟩
  have h := C1_path_param_bijection
    (match addParameter emptyStorage ⟨11, "W"⟩ "show"
        ⟨some "id", true, SchemaType.number, 0, ParamKind.param, none⟩ with
     | .ok s => s
     | .error _ => emptyStorage)
    ⟨11, "W"⟩
    ⟨"/users/:id", 1, "show", HttpMethod.GET,
      SchemaType.object (some []) none⟩ rfl
  exact (h.2.2.2.2 (by decide)).1

/-! ## C7 -/

/-- Unfolding equation for `dispatchFuel` with positive fuel. -/
theorem dispatchFuel_succ (mws : List MwBehavior) (n k : Nat) (i : Int) :
    dispatchFuel mws (n + 1) k i =
      if (k : Int) ≤ i then .error nextCalledTwiceMsg
      else
        if h : k < mws.length then
          runStage (mws.get ⟨k, h⟩) (dispatchFuel mws n (k + 1)) (k : Int)
        else .ok (k : Int) := rfl

theorem except_bind_error (e : ε) (f : α → Except ε β) :
    (Except.error e >>= f) = (Except.error e : Except ε β) := rfl

theorem except_bind_ok (a : α) (f : α → Except ε β) :
    (Except.ok a >>= f) = f a := rfl

/-- A successful dispatch from stage `k` leaves the counter at ≥ `k`. -/
theorem dispatchFuel_ok_ge :
    ∀ (mws : List MwBehavior) (fuel k : Nat) (i j : Int),
      dispatchFuel mws fuel k i = .ok j → (k : Int) ≤ j := by
  intro mws fuel
  induction fuel with
  | zero => intro k i j h; simp [dispatchFuel] at h
  | succ n ih =>
      intro k i j h
      rw [dispatchFuel_succ] at h
      split_ifs at h with hg hlen
      · cases hb : mws.get ⟨k, hlen⟩ <;> rw [hb] at h
        · simp only [runStage] at h
          injection h with h
          omega
        · simp only [runStage] at h
          have := ih (k + 1) (k : Int) j h
          omega
        · simp only [runStage] at h
          cases hfirst : dispatchFuel mws n (k + 1) (k : Int) with
          | error e => rw [hfirst, except_bind_error] at h; exact absurd h (by simp)
          | ok i1 =>
              rw [hfirst, except_bind_ok] at h
              have := ih (k + 1) i1 j h
              omega
        · simp only [runStage] at h
          exact absurd h (by simp)
        · simp only [runStage] at h
          cases hfirst : dispatchFuel mws n (k + 1) (k : Int) with
          | error e => rw [hfirst, except_bind_error] at h; exact absurd h (by simp)
          | ok i1 => rw [hfirst, except_bind_ok] at h; exact absurd h (by simp)
      · injection h with h
        omega

/-- C7: in the pipeline runner, a stage that invokes its `proceed`
continuation a second time after the first invocation resolved makes the
run fail with the hard error `next() called twice`; chains whose stages
each invoke `proceed` at most once always complete without this error; and
concretely a lone double-proceeding stage fails while ordinary chains
succeed (a stage that never proceeds simply short-circuits). -/
theorem C7_double_proceed_guard :
    (∀ (mws : List MwBehavior) (fuel k : Nat) (i j : Int) (h : k < mws.length),
      mws.get ⟨k, h⟩ = .twice → i < (k : Int) →
      dispatchFuel mws fuel (k + 1) (k : Int) = .ok j →
      dispatchFuel mws (fuel + 1) k i = .error nextCalledTwiceMsg) ∧
    (∀ (mws : List MwBehavior), (∀ b ∈ mws, b = .skip ∨ b = .once) →
      ∀ (fuel k : Nat) (i : Int), i < (k : Int) → mws.length - k < fuel →
        ∃ j, dispatchFuel mws fuel k i = .ok j) ∧
    runPipeline [.twice] = .error nextCalledTwiceMsg ∧
    runPipeline [.once, .skip] = .ok 1 ∧
    runPipeline [.skip, .twice] = .ok 0 := by
  refine ⟨?_, ?_, rfl, rfl, rfl⟩
  · intro mws fuel k i j h hstage hi hres
    rw [dispatchFuel_succ, if_neg (not_le.mpr hi), dif_pos h, hstage]
    simp only [runStage]
    rw [hres, except_bind_ok]
    have hj : ((k : Int) + 1) ≤ j := by
      have := dispatchFuel_ok_ge mws fuel (k + 1) (k : Int) j hres
      omega
    cases fuel with
    | zero => simp [dispatchFuel] at hres
    | succ f =>
        rw [dispatchFuel_succ, if_pos (by omega)]
  · intro mws hall fuel
    induction fuel with
    | zero => intro k i hik hfuel; omega
    | succ n ih =>
        intro k i hik hfuel
        rw [dispatchFuel_succ, if_neg (not_le.mpr hik)]
        by_cases hlen : k < mws.length
        · rw [dif_pos hlen]
          rcases hall _ (List.get_mem mws k hlen) with hb | hb <;> rw [hb]
          · exact ⟨(k : Int), rfl⟩
          · simp only [runStage]
            exact ih (k + 1) (k : Int) (by omega) (by omega)
        · rw [dif_neg hlen]
          exact ⟨(k : Int), rfl⟩

/-- C7, witness: the guard conclusion at the one-stage double-proceeding
chain, and the safety conclusion at a single well-behaved stage. -/
theorem C7_double_proceed_witness :
    dispatchFuel [MwBehavior.twice] 2 0 (-1) = .error nextCalledTwiceMsg ∧
    (∃ j, dispatchFuel [MwBehavior.once] 2 0 (-1) = .ok j) :=
  ⟨C7_double_proceed_guard.1 [MwBehavior.twice] 1 0 (-1) 1 (by decide) rfl
      (by decide) rfl,
   C7_double_proceed_guard.2.1 [MwBehavior.once] (by decide) 2 0 (-1)
      (by decide) (by decide)⟩

/-! ### C4: the object case of the validator -/

theorem validateFuel_succ (n : Nat) (v : JSVal) (sch : SchemaType)
    (pt : ParamKind) (p : String) :
    validateFuel (n + 1) v sch pt p
      = validateBody (fun v2 s2 p2 => validateFuel n v2 s2 pt p2) v sch pt p := rfl

theorem schemaSize_pos (s : SchemaType) : 0 < schemaSize s := by
  cases s with
  | string => simp only [schemaSize]; omega
  | number => simp only [schemaSize]; omega
  | boolean => simp only [schemaSize]; omega
  | null => simp only [schemaSize]; omega
  | file => simp only [schemaSize]; omega
  | dataStream => simp only [schemaSize]; omega
  | fileStream => simp only [schemaSize]; omega
  | voidTy => simp only [schemaSize]; omega
  | array o => cases o <;> simp only [schemaSize] <;> omega
  | object o r => cases o <;> simp only [schemaSize] <;> omega
  | union o => cases o <;> simp only [schemaSize] <;> omega
  | tuple o => cases o <;> simp only [schemaSize] <;> omega

theorem schemaSize_lt_entries {props : List (String × SchemaType)} {k : String}
    {s : SchemaType} (h : (k, s) ∈ props) : schemaSize s < schemaSizeEntries props := by
  induction props with
  | nil => cases h
  | cons kv rest ih =>
      obtain ⟨k0, s0⟩ := kv
      simp only [schemaSizeEntries]
      rcases List.mem_cons.mp h with h1 | h2
      · injection h1 with hk hs
        subst hs
        omega
      · have := ih h2
        omega

theorem schemaSize_lt_list {l : List SchemaType} {s : SchemaType} (h : s ∈ l) :
    schemaSize s < schemaSizeList l := by
  induction l with
  | nil => cases h
  | cons a rest ih =>
      simp only [schemaSizeList]
      rcases List.mem_cons.mp h with h1 | h2
      · subst h1
        omega
      · have := ih h2
        omega

theorem list_mapM_congr {α β : Type} (F G : α → Except VErr β) (l : List α)
    (h : ∀ a ∈ l, F a = G a) : l.mapM F = l.mapM G := by
  induction l with
  | nil => rfl
  | cons a as ih =>
      rw [List.mapM_cons, List.mapM_cons, h a (List.mem_cons_self a as),
        ih (fun b hb => h b (List.mem_cons_of_mem a hb))]

theorem snd_mem_of_mem_enumFrom {α : Type} {l : List α} :
    ∀ {n : Nat} {q : Nat × α}, q ∈ l.enumFrom n → q.2 ∈ l := by
  induction l with
  | nil => intro n q h; cases h
  | cons a as ih =>
      intro n q h
      simp only [List.enumFrom] at h
      rcases List.mem_cons.mp h with h1 | h2
      · subst h1
        exact List.mem_cons_self _ _
      · exact List.mem_cons_of_mem _ (ih h2)

theorem snd_mem_of_mem_enum {α : Type} {l : List α} {q : Nat × α}
    (h : q ∈ l.enum) : q.2 ∈ l := snd_mem_of_mem_enumFrom h

theorem validateProps_congr (f g : JSVal → SchemaType → String → Except VErr JSVal)
    (req : Option (List String)) (obj : JSVal) (path : String)
    (props : List (String × SchemaType))
    (h : ∀ v2 s2 p2, (∃ k, (k, s2) ∈ props) → f v2 s2 p2 = g v2 s2 p2) :
    validateProps f req obj path props = validateProps g req obj path props := by
  induction props with
  | nil => rfl
  | cons kv rest ih =>
      obtain ⟨key, sch⟩ := kv
      have hrest := ih (fun v2 s2 p2 hk =>
        h v2 s2 p2 (hk.imp (fun k hk2 => List.mem_cons_of_mem _ hk2)))
      have hhead : ∀ v2 p2, f v2 sch p2 = g v2 sch p2 :=
        fun v2 p2 => h v2 sch p2 ⟨key, List.mem_cons_self _ _⟩
      simp only [validateProps]
      simp only [hrest, hhead]

theorem validateSwitch_congr (f g : JSVal → SchemaType → String → Except VErr JSVal)
    (v : JSVal) (sch : SchemaType) (pt : ParamKind) (p : String)
    (h : ∀ v2 s2 p2, schemaSize s2 < schemaSize sch → f v2 s2 p2 = g v2 s2 p2) :
    validateSwitch f v sch pt p = validateSwitch g v sch pt p := by
  by_cases hfile : schemaTag sch = "file" ∨ pt = ParamKind.file
  · simp only [validateSwitch, hfile, if_true]
  · simp only [validateSwitch, hfile, if_false]
    cases sch with
    | string => rfl
    | number => rfl
    | boolean => rfl
    | null => rfl
    | file => rfl
    | dataStream => rfl
    | fileStream => rfl
    | voidTy => rfl
    | array items =>
        cases items with
        | none => rfl
        | some itemSchema =>
            have hf : ∀ v2 p2, f v2 itemSchema p2 = g v2 itemSchema p2 :=
              fun v2 p2 => h v2 itemSchema p2 (by simp only [schemaSize]; omega)
            cases v <;> first | rfl | simp only [hf]
    | object properties required =>
        cases properties with
        | none => rfl
        | some props =>
            have hvp : ∀ v2, validateProps f required v2 p props
                = validateProps g required v2 p props := by
              intro v2
              apply validateProps_congr
              intro v3 s3 p3 hk
              obtain ⟨k, hk2⟩ := hk
              refine h v3 s3 p3 ?_
              have := schemaSize_lt_entries hk2
              simp only [schemaSize]
              omega
            cases v <;> first | rfl | simp only [hvp]
    | union oneOf =>
        cases oneOf with
        | none => rfl
        | some opts =>
            have hmap : opts.map (fun sub => f v sub p)
                = opts.map (fun sub => g v sub p) := by
              refine List.map_congr_left (fun sub hsub => ?_)
              refine h v sub p ?_
              have := schemaSize_lt_list hsub
              simp only [schemaSize]
              omega
            simp only [hmap]
    | tuple elements =>
        cases elements with
        | none => rfl
        | some els =>
            have hmapM : ∀ (xs : List JSVal),
                ((xs.zip els).enum.mapM
                    (fun q => f q.2.1 q.2.2 (itemPathOf p q.1)))
                  = ((xs.zip els).enum.mapM
                    (fun q => g q.2.1 q.2.2 (itemPathOf p q.1))) := by
              intro xs
              refine list_mapM_congr _ _ _ (fun q hq => ?_)
              have hz := snd_mem_of_mem_enum hq
              have hmem : q.2.2 ∈ els := (List.of_mem_zip hz).2
              refine h _ _ _ ?_
              have := schemaSize_lt_list hmem
              simp only [schemaSize]
              omega
            cases v <;> first | rfl | simp only [hmapM]

theorem validateBody_congr (f g : JSVal → SchemaType → String → Except VErr JSVal)
    (v : JSVal) (sch : SchemaType) (pt : ParamKind) (p : String)
    (h : ∀ v2 s2 p2, schemaSize s2 < schemaSize sch → f v2 s2 p2 = g v2 s2 p2) :
    validateBody f v sch pt p = validateBody g v sch pt p := by
  have hsw : ∀ v2, validateSwitch f v2 sch pt p = validateSwitch g v2 sch pt p :=
    fun v2 => validateSwitch_congr f g v2 sch pt p h
  by_cases hpt : pt = ParamKind.ctx ∨ pt = ParamKind.rawBody
  · simp only [validateBody, hpt, if_true]
  · simp only [validateBody, hpt, if_false]
    cases v <;> first | rfl | simp only [hsw]

theorem validateFuel_congr : ∀ (n : Nat) (sch : SchemaType), schemaSize sch ≤ n →
    ∀ (f1 f2 : Nat) (v : JSVal) (pt : ParamKind) (p : String),
      schemaSize sch ≤ f1 → schemaSize sch ≤ f2 →
      validateFuel f1 v sch pt p = validateFuel f2 v sch pt p := by
  intro n
  induction n using Nat.strong_induction_on with
  | _ n ih =>
      intro sch hn f1 f2 v pt p h1 h2
      have hpos := schemaSize_pos sch
      cases f1 with
      | zero => omega
      | succ f1p =>
          cases f2 with
          | zero => omega
          | succ f2p =>
              rw [validateFuel_succ, validateFuel_succ]
              apply validateBody_congr
              intro v2 s2 p2 hlt
              exact ih (schemaSize s2) (by omega) s2 le_rfl f1p f2p v2 pt p2
                (by omega) (by omega)

theorem validateFuel_eq_validateAndTransform (fuel : Nat) (sch : SchemaType)
    (hf : schemaSize sch ≤ fuel) (v : JSVal) (pt : ParamKind) (p : String) :
    validateFuel fuel v sch pt p = validateAndTransform v sch pt p :=
  validateFuel_congr fuel sch hf fuel (schemaSize sch) v pt p hf le_rfl

theorem validateBody_vObj (recur : JSVal → SchemaType → String → Except VErr JSVal)
    (fields : List (String × JSVal)) (sch : SchemaType) (pt : ParamKind) (p : String)
    (hctx : pt ≠ ParamKind.ctx) (hraw : pt ≠ ParamKind.rawBody) :
    validateBody recur (JSVal.vObj fields) sch pt p
      = validateSwitch recur (JSVal.vObj fields) sch pt p := by
  have hpt : ¬(pt = ParamKind.ctx ∨ pt = ParamKind.rawBody) := by
    simp [hctx, hraw]
  simp only [validateBody, hpt, if_false, except_bind_ok]

theorem validateSwitch_object_vObj
    (recur : JSVal → SchemaType → String → Except VErr JSVal)
    (props : List (String × SchemaType)) (req : Option (List String))
    (fields : List (String × JSVal)) (pt : ParamKind) (p : String)
    (hfile : pt ≠ ParamKind.file) :
    validateSwitch recur (JSVal.vObj fields) (SchemaType.object (some props) req) pt p
      = (validateProps recur req (JSVal.vObj fields) p props).map JSVal.vObj := by
  have hfp : ¬(schemaTag (SchemaType.object (some props) req) = "file" ∨
      pt = ParamKind.file) := by
    rintro (hs | hp)
    · have hobj : schemaTag (SchemaType.object (some props) req) = "object" := rfl
      rw [hobj] at hs
      exact absurd hs (by decide)
    · exact hfile hp
  simp only [validateSwitch, hfp, if_false]

theorem validate_object_vObj (props : List (String × SchemaType))
    (req : Option (List String)) (fields : List (String × JSVal))
    (pt : ParamKind) (path : String)
    (hctx : pt ≠ ParamKind.ctx) (hraw : pt ≠ ParamKind.rawBody)
    (hfile : pt ≠ ParamKind.file) :
    validateAndTransform (JSVal.vObj fields) (SchemaType.object (some props) req) pt path
      = (validateProps (fun v2 s2 p2 => validateAndTransform v2 s2 pt p2) req
          (JSVal.vObj fields) path props).map JSVal.vObj := by
  have hsz : schemaSize (SchemaType.object (some props) req)
      = (1 + schemaSizeEntries props) + 1 := by
    simp only [schemaSize]
    omega
  show validateFuel (schemaSize (SchemaType.object (some props) req)) _ _ _ _ = _
  rw [hsz, validateFuel_succ]
  rw [validateBody_vObj _ _ _ _ _ hctx hraw]
  rw [validateSwitch_object_vObj _ _ _ _ _ _ hfile]
  congr 1
  apply validateProps_congr
  intro v2 s2 p2 hk
  obtain ⟨k, hk2⟩ := hk
  refine validateFuel_eq_validateAndTransform _ s2 ?_ v2 pt p2
  have := schemaSize_lt_entries hk2
  omega

theorem any_key_eq_lookup_isSome (fields : List (String × JSVal)) (k : String) :
    fields.any (fun p => p.1 == k) = (List.lookup k fields).isSome := by
  induction fields with
  | nil => rfl
  | cons a rest ih =>
      obtain ⟨k0, v0⟩ := a
      simp only [List.any_cons, List.lookup]
      by_cases hk : k0 = k
      · subst hk
        simp
      · have h1 : (k0 == k) = false := by simp [hk]
        have h2 : (k == k0) = false := by simp [Ne.symm hk]
        simp [h1, h2, ih]

theorem validateProps_cons_missing
    (f : JSVal → SchemaType → String → Except VErr JSVal)
    (req : Option (List String)) (fields : List (String × JSVal))
    (path key : String) (sch : SchemaType) (rest : List (String × SchemaType))
    (hreq : requiredHas req key = true)
    (habs : fields.any (fun p => p.1 == key) = false) :
    validateProps f req (JSVal.vObj fields) path ((key, sch) :: rest)
      = .error (.badRequest (missingPropMsg key path)) := by
  simp only [validateProps, jsInOp, hreq, habs, eq_self_iff_true, if_true,
    Bool.false_eq_true, if_false, except_bind_ok, except_bind_error]

theorem validateProps_cons_absent
    (f : JSVal → SchemaType → String → Except VErr JSVal)
    (req : Option (List String)) (fields : List (String × JSVal))
    (path key : String) (sch : SchemaType) (rest : List (String × SchemaType))
    (hreq : requiredHas req key = false)
    (habs : fields.any (fun p => p.1 == key) = false) :
    validateProps f req (JSVal.vObj fields) path ((key, sch) :: rest)
      = validateProps f req (JSVal.vObj fields) path rest := by
  simp only [validateProps, jsInOp, hreq, habs, Bool.false_eq_true, if_false,
    except_bind_ok]

theorem validateProps_cons_present
    (f : JSVal → SchemaType → String → Except VErr JSVal)
    (req : Option (List String)) (fields : List (String × JSVal))
    (path key : String) (sch : SchemaType) (rest : List (String × SchemaType))
    (hpres : fields.any (fun p => p.1 == key) = true) :
    validateProps f req (JSVal.vObj fields) path ((key, sch) :: rest)
      = (f (jsGetProp (JSVal.vObj fields) key) sch (propPathOf path key) >>= fun x =>
          (validateProps f req (JSVal.vObj fields) path rest >>= fun restR =>
            Except.ok ((key, x) :: restR))) := by
  by_cases hreq : requiredHas req key = true
  · simp only [validateProps, jsInOp, hreq, hpres, eq_self_iff_true, if_true,
      except_bind_ok]
  · have hreqF : requiredHas req key = false := by
      simpa using hreq
    simp only [validateProps, jsInOp, hreqF, hpres, eq_self_iff_true, if_true,
      Bool.false_eq_true, if_false, except_bind_ok]

theorem validateProps_missing_error
    (f : JSVal → SchemaType → String → Except VErr JSVal)
    (req : Option (List String)) (fields : List (String × JSVal)) (path : String) :
    ∀ props : List (String × SchemaType),
      (∃ k s2, (k, s2) ∈ props ∧ requiredHas req k = true ∧
        fields.any (fun p => p.1 == k) = false) →
      ∃ e, validateProps f req (JSVal.vObj fields) path props = .error e := by
  intro props
  induction props with
  | nil =>
      rintro ⟨k, s2, hmem, _, _⟩
      cases hmem
  | cons kv rest ih =>
      rintro ⟨k, s2, hmem, hreq, habs⟩
      obtain ⟨key, sch⟩ := kv
      by_cases hpres : fields.any (fun p => p.1 == key) = true
      · have hkrest : (k, s2) ∈ rest := by
          rcases List.mem_cons.mp hmem with h1 | h2
          · injection h1 with hk hs
            subst hk
            rw [habs] at hpres
            exact Bool.noConfusion hpres
          · exact h2
        rw [validateProps_cons_present f req fields path key sch rest hpres]
        obtain ⟨e, he⟩ := ih ⟨k, s2, hkrest, hreq, habs⟩
        cases hf : f (jsGetProp (JSVal.vObj fields) key) sch (propPathOf path key) with
        | error e2 => exact ⟨e2, rfl⟩
        | ok x =>
            refine ⟨e, ?_⟩
            rw [except_bind_ok, he, except_bind_error]
      · have habs2 : fields.any (fun p => p.1 == key) = false :=
          Bool.eq_false_iff.mpr hpres
        by_cases hreqK : requiredHas req key = true
        · exact ⟨_, validateProps_cons_missing f req fields path key sch rest hreqK habs2⟩
        · have hreqF : requiredHas req key = false := by
            simpa using hreqK
          rw [validateProps_cons_absent f req fields path key sch rest hreqF habs2]
          have hkrest : (k, s2) ∈ rest := by
            rcases List.mem_cons.mp hmem with h1 | h2
            · injection h1 with hk hs
              subst hk
              rw [hreqF] at hreq
              exact Bool.noConfusion hreq
            · exact h2
          exact ih ⟨k, s2, hkrest, hreq, habs⟩

theorem validateProps_ok_spec
    (f : JSVal → SchemaType → String → Except VErr JSVal)
    (req : Option (List String)) (fields : List (String × JSVal)) (path : String) :
    ∀ (props : List (String × SchemaType)) (out : List (String × JSVal)),
      validateProps f req (JSVal.vObj fields) path props = .ok out →
      out.map Prod.fst = (props.map Prod.fst).filter
          (fun k2 => fields.any (fun p => p.1 == k2)) ∧
      ∀ kx ∈ out, ∃ s2 raw, (kx.1, s2) ∈ props ∧
        List.lookup kx.1 fields = some raw ∧
        f raw s2 (propPathOf path kx.1) = .ok kx.2 := by
  intro props
  induction props with
  | nil =>
      intro out h
      simp only [validateProps] at h
      injection h with h
      subst h
      exact ⟨rfl, fun kx hkx => absurd hkx (List.not_mem_nil kx)⟩
  | cons kv rest ih =>
      intro out h
      obtain ⟨key, sch⟩ := kv
      by_cases hpres : fields.any (fun p => p.1 == key) = true
      · rw [validateProps_cons_present f req fields path key sch rest hpres] at h
        cases hf : f (jsGetProp (JSVal.vObj fields) key) sch (propPathOf path key) with
        | error e =>
            rw [hf, except_bind_error] at h
            exact Except.noConfusion h
        | ok x =>
            rw [hf, except_bind_ok] at h
            cases hrest : validateProps f req (JSVal.vObj fields) path rest with
            | error e =>
                rw [hrest, except_bind_error] at h
                exact Except.noConfusion h
            | ok restR =>
                rw [hrest, except_bind_ok] at h
                injection h with h
                subst h
                obtain ⟨ihmap, ihmem⟩ := ih restR hrest
                constructor
                · simp only [List.map_cons, List.filter_cons, hpres, if_true]
                  rw [ihmap]
                · intro kx hkx
                  rcases List.mem_cons.mp hkx with h1 | h2
                  · subst h1
                    have hlk : (List.lookup key fields).isSome := by
                      rw [← any_key_eq_lookup_isSome]
                      exact hpres
                    obtain ⟨raw, hraw⟩ := Option.isSome_iff_exists.mp hlk
                    refine ⟨sch, raw, List.mem_cons_self _ _, hraw, ?_⟩
                    have hget : jsGetProp (JSVal.vObj fields) key = raw := by
                      simp [jsGetProp, hraw]
                    rwa [hget] at hf
                  · obtain ⟨s2, raw, hm, hlk, hv⟩ := ihmem kx h2
                    exact ⟨s2, raw, List.mem_cons_of_mem _ hm, hlk, hv⟩
      · have habs : fields.any (fun p => p.1 == key) = false :=
          Bool.eq_false_iff.mpr hpres
        by_cases hreqK : requiredHas req key = true
        · rw [validateProps_cons_missing f req fields path key sch rest hreqK habs] at h
          exact Except.noConfusion h
        · have hreqF : requiredHas req key = false := by
            simpa using hreqK
          rw [validateProps_cons_absent f req fields path key sch rest hreqF habs] at h
          obtain ⟨ihmap, ihmem⟩ := ih out h
          constructor
          · simp only [List.map_cons, List.filter_cons, habs, Bool.false_eq_true,
              if_false]
            exact ihmap
          · intro kx hkx
            obtain ⟨s2, raw, hm, hlk, hv⟩ := ihmem kx hkx
            exact ⟨s2, raw, List.mem_cons_of_mem _ hm, hlk, hv⟩

/-- C4, counterexample: a key listed in `schema.required` but not declared in
`schema.properties` is never checked: with no declared properties and
`required = ["x"]` the validator accepts the empty object, so "every key
listed in schema.required that is absent from the input causes a BadRequest
error" fails on the code. -/
theorem C4_undeclared_required_counterexample :
    requiredHas (some ["x"]) "x" = true ∧
    validateAndTransform (JSVal.vObj []) (SchemaType.object (some []) (some ["x"]))
      ParamKind.body "" = Except.ok (JSVal.vObj []) := ⟨rfl, rfl⟩

/-- C4 (amended): for object schemas, (1) a key that is listed in
`schema.required` AND declared in `schema.properties` and absent from the
input object forces validation to fail; (2) on success the returned object
holds exactly the declared keys present in the input, in declaration order,
each value being the recursive validation of the corresponding input value
at the dotted path; (3) required keys not declared in `properties` are never
checked: with no declared properties any input object validates to `{}`. -/
theorem C4_object_required_and_filtering
    (props : List (String × SchemaType)) (req : Option (List String))
    (fields : List (String × JSVal)) (pt : ParamKind) (path : String)
    (hctx : pt ≠ ParamKind.ctx) (hraw : pt ≠ ParamKind.rawBody)
    (hfile : pt ≠ ParamKind.file) :
    ((∃ k s2, (k, s2) ∈ props ∧ requiredHas req k = true ∧
        List.lookup k fields = none) →
      ∃ e, validateAndTransform (JSVal.vObj fields)
        (SchemaType.object (some props) req) pt path = Except.error e) ∧
    (∀ out, validateAndTransform (JSVal.vObj fields)
        (SchemaType.object (some props) req) pt path = Except.ok out →
      ∃ outFields, out = JSVal.vObj outFields ∧
        outFields.map Prod.fst =
          (props.map Prod.fst).filter (fun k2 => (List.lookup k2 fields).isSome) ∧
        ∀ kx ∈ outFields, ∃ s2 raw, (kx.1, s2) ∈ props ∧
          List.lookup kx.1 fields = some raw ∧
          validateAndTransform raw s2 pt (propPathOf path kx.1) = Except.ok kx.2) ∧
    (validateAndTransform (JSVal.vObj fields)
        (SchemaType.object (some []) req) pt path = Except.ok (JSVal.vObj [])) := by
  refine ⟨?_, ?_, ?_⟩
  · rintro ⟨k, s2, hmem, hreq2, hlk⟩
    have habs : fields.any (fun p => p.1 == k) = false := by
      rw [any_key_eq_lookup_isSome, hlk]
      rfl
    obtain ⟨e, he⟩ := validateProps_missing_error
      (fun v2 s2 p2 => validateAndTransform v2 s2 pt p2) req fields path props
      ⟨k, s2, hmem, hreq2, habs⟩
    refine ⟨e, ?_⟩
    rw [validate_object_vObj props req fields pt path hctx hraw hfile, he]
    rfl
  · intro out hout
    rw [validate_object_vObj props req fields pt path hctx hraw hfile] at hout
    cases hvp : validateProps (fun v2 s2 p2 => validateAndTransform v2 s2 pt p2)
        req (JSVal.vObj fields) path props with
    | error e =>
        rw [hvp] at hout
        exact Except.noConfusion hout
    | ok outFields =>
        rw [hvp] at hout
        injection hout with hout
        refine ⟨outFields, hout.symm, ?_, ?_⟩
        · have hmap := (validateProps_ok_spec _ req fields path props outFields hvp).1
          rw [hmap]
          refine List.filter_congr (fun k2 _ => ?_)
          rw [any_key_eq_lookup_isSome]
        · intro kx hkx
          obtain ⟨s2, raw, hm, hlk, hv⟩ :=
            (validateProps_ok_spec _ req fields path props outFields hvp).2 kx hkx
          exact ⟨s2, raw, hm, hlk, hv⟩
  · rw [validate_object_vObj [] req fields pt path hctx hraw hfile]
    rfl

/-- C4, witness: with declared property `n` of type number, `required = ["n"]`
and the empty input object, body-kind validation fails. -/
theorem C4_object_required_and_filtering_witness :
    ParamKind.body ≠ ParamKind.ctx ∧
    (∃ e, validateAndTransform (JSVal.vObj [])
        (SchemaType.object (some [("n", SchemaType.number)]) (some ["n"]))
        ParamKind.body "" = Except.error e) :=
  ⟨by decide,
   (C4_object_required_and_filtering [("n", SchemaType.number)] (some ["n"]) []
        ParamKind.body "" (by decide) (by decide) (by decide)).1
      ⟨"n", SchemaType.number, List.mem_cons_self _ _, rfl, rfl⟩⟩

end Constantia
